import Mathlib

/-!
# Starsaver: position update driver and renderer

A shallow embedding of `src/core_position.c`, `src/core_render.c` and the option
handling of `src/main.c`.

Conventions of the embedding:

* C `double` and `float` values are exact rationals (`ℚ`): comparisons and the four
  arithmetic operations are the exact ones, rounding and NaN are outside the model.
  The option values that `main.c` takes from `atof` are the exception: they are
  `c_double` values, a rational, an infinity or NaN, compared as C compares them.
* Functions of `astro.h`, `coord.h` and `<math.h>`, whose bodies are not part of the
  sources, are fields of the `astro` record; `atof`, `atoi` and the time functions
  used by `main.c` are fields of the `libc` record. Both are arbitrary in every
  theorem.
* A C array given as pointer plus element count is a `List`; an access outside the
  list is a `fault`.
* ncurses output is the list of drawing calls issued, in order.
-/

namespace Starsaver

/-! ## Data model (`core.h`) -/

/-- Modelled from the spec: the Keplerian element block of `astro.h` (declaration not
in the sources). The spec lists six elements; `M`, `w`, `O` are the names the source
reads in `update_moon_phase`. -/
structure kep_elems where
  a : ℚ
  e : ℚ
  I : ℚ
  M : ℚ
  w : ℚ
  O : ℚ
deriving DecidableEq

/-- Modelled from the spec: the secular rates of the six elements (declaration not in
the sources); `dM`, `dw`, `dO` are the names the source reads. -/
structure kep_rates where
  da : ℚ
  de : ℚ
  dI : ℚ
  dM : ℚ
  dw : ℚ
  dO : ℚ
deriving DecidableEq

/-- Modelled from the spec: the perturbation terms of the outer planets (declaration
not in the sources); only ever passed on whole to `calc_planet_helio_ICRF`. -/
structure kep_extra where
  terms : List ℚ
deriving DecidableEq

/-- Modelled from the spec: `struct object_base` of `core.h` (declaration not in the
sources), with exactly the fields that the sources read or write. `label = none` is
the C `NULL`. -/
structure object_base where
  y : Int
  x : Int
  azimuth : ℚ
  altitude : ℚ
  color_pair : Int
  symbol_ASCII : Char
  symbol_unicode : String
  label : Option String
deriving DecidableEq

/-- Modelled from the spec: `struct star` of `core.h` (declaration not in the
sources), with the fields the sources read or write. -/
structure star where
  base : object_base
  magnitude : ℚ
  right_ascension : ℚ
  declination : ℚ
  ra_motion : ℚ
  dec_motion : ℚ
deriving DecidableEq

/-- Modelled from the spec: `struct planet` of `core.h` (declaration not in the
sources). -/
structure planet where
  base : object_base
  elements : kep_elems
  rates : kep_rates
  extras : kep_extra
deriving DecidableEq

/-- Modelled from the spec: `struct moon` of `core.h` (declaration not in the
sources). -/
structure moon where
  base : object_base
  elements : kep_elems
  rates : kep_rates
deriving DecidableEq

/-- Modelled from the spec: the planet enumeration of `core.h` (not in the sources).
The three constants the sources use are kept arbitrary. -/
structure planet_enum where
  SUN : Nat
  EARTH : Nat
  NUM_PLANETS : Nat

/-- Modelled from the spec: `struct constell` of `core.h` (declaration not in the
sources): a segment count and the flat array of catalog numbers, two per segment. -/
structure constell where
  num_segments : Nat
  star_numbers : List Int
deriving DecidableEq

/-- Modelled from the spec: `struct render_flags` of `core_render.h` (declaration not
in the sources). -/
structure render_flags where
  unicode : Bool
  color : Bool
  label_thresh : ℚ
deriving DecidableEq

/-- The part of an ncurses `WINDOW` the sources read: what `getmaxyx` returns. -/
structure window where
  height : Int
  width : Int
deriving DecidableEq

/-- The functions whose bodies are not in the sources (`astro.h`, `coord.h`,
`<math.h>`). Output parameters of the C functions are returned as tuples. -/
structure astro where
  greenwich_mean_sidereal_time_rad : ℚ → ℚ
  calc_star_position : ℚ → ℚ → ℚ → ℚ → ℚ → ℚ × ℚ
  calc_planet_helio_ICRF : kep_elems → kep_rates → kep_extra → ℚ → ℚ × ℚ × ℚ
  calc_moon_geo_ICRF : kep_elems → kep_rates → ℚ → ℚ × ℚ × ℚ
  equatorial_rectangular_to_spherical : ℚ → ℚ → ℚ → ℚ × ℚ
  equatorial_to_horizontal : ℚ → ℚ → ℚ → ℚ → ℚ → ℚ × ℚ
  horizontal_to_spherical : ℚ → ℚ → ℚ × ℚ
  project_stereographic_north : ℚ → ℚ → ℚ → ℚ × ℚ
  polar_to_win : ℚ → ℚ → Int → Int → Int × Int
  sqrt : ℚ → ℚ

/-- What can go wrong in the C code: a read outside an array. The payload is the
index that was used. -/
inductive fault where
  | star_table_index (k : Int)
  | num_by_mag_index (k : Nat)
  | star_numbers_index (k : Nat)
deriving DecidableEq

/-! ## `core_position.c` -/

/-- The body of the loop of `update_star_positions` for one table entry. -/
def update_star (ext : astro) (gmst julian_date latitude longitude : ℚ) (s : star) : star :=
  let rd := ext.calc_star_position s.right_ascension s.ra_motion
    s.declination s.dec_motion julian_date
  let aa := ext.equatorial_to_horizontal rd.1 rd.2 gmst latitude longitude
  { s with base := { s.base with azimuth := aa.1, altitude := aa.2 } }

/-- Embedding of `update_star_positions`: the loop `for (i = 0; i < num_stars; ++i)`
over `&star_table[i]`, with `num_stars` the length of the table. -/
def update_star_positions (ext : astro) (star_table : List star)
    (julian_date latitude longitude : ℚ) : List star :=
  let gmst := ext.greenwich_mean_sidereal_time_rad julian_date
  star_table.map (update_star ext gmst julian_date latitude longitude)

/-- The geocentric vector `(xg, yg, zg)` that iteration `i` of the loop of
`update_planet_positions` computes (lines 47-75). -/
def planet_geocentric (ext : astro) (ids : planet_enum) (planet_table : Nat → planet)
    (julian_date : ℚ) (i : Nat) : ℚ × ℚ × ℚ :=
  let e := ext.calc_planet_helio_ICRF (planet_table ids.EARTH).elements
    (planet_table ids.EARTH).rates (planet_table ids.EARTH).extras julian_date
  if i = ids.SUN then
    (-e.1, -e.2.1, -e.2.2)
  else
    let g := ext.calc_planet_helio_ICRF (planet_table i).elements
      (planet_table i).rates (planet_table i).extras julian_date
    (g.1 - e.1, g.2.1 - e.2.1, g.2.2 - e.2.2)

/-- One iteration of the loop of `update_planet_positions`: the new table and the
vector handed to `equatorial_rectangular_to_spherical`. -/
def update_planet_step (ext : astro) (ids : planet_enum) (gmst julian_date latitude longitude : ℚ)
    (planet_table : Nat → planet) (i : Nat) : (Nat → planet) × (ℚ × ℚ × ℚ) :=
  let v := planet_geocentric ext ids planet_table julian_date i
  let rd := ext.equatorial_rectangular_to_spherical v.1 v.2.1 v.2.2
  let aa := ext.equatorial_to_horizontal rd.1 rd.2 gmst latitude longitude
  let p := planet_table i
  (Function.update planet_table i
      { p with base := { p.base with azimuth := aa.1, altitude := aa.2 } }, v)

/-- The loop `for (i = ...; i < NUM_PLANETS; ++i)` with `n` iterations left. Returns
the table and, per iteration, the index with the vector handed to
`equatorial_rectangular_to_spherical`. -/
def update_planet_loop (ext : astro) (ids : planet_enum) (gmst julian_date latitude longitude : ℚ) :
    Nat → Nat → (Nat → planet) → (Nat → planet) × List (Nat × (ℚ × ℚ × ℚ))
  | 0, _, planet_table => (planet_table, [])
  | n + 1, i, planet_table =>
    let r := update_planet_step ext ids gmst julian_date latitude longitude planet_table i
    let rest := update_planet_loop ext ids gmst julian_date latitude longitude n (i + 1) r.1
    (rest.1, (i, r.2) :: rest.2)

/-- Embedding of `update_planet_positions`. The planet table is the map from an
array index to its entry. -/
def update_planet_positions (ext : astro) (ids : planet_enum) (planet_table : Nat → planet)
    (julian_date latitude longitude : ℚ) : (Nat → planet) × List (Nat × (ℚ × ℚ × ℚ)) :=
  let gmst := ext.greenwich_mean_sidereal_time_rad julian_date
  update_planet_loop ext ids gmst julian_date latitude longitude
    (ids.NUM_PLANETS - ids.SUN) ids.SUN planet_table

/-- The vector the claim of the spec describes for index `i`: the negated
heliocentric position of the Earth for the Sun, the difference to it otherwise. -/
def geocentric_spec (ext : astro) (ids : planet_enum) (planet_table : Nat → planet)
    (julian_date : ℚ) (i : Nat) : ℚ × ℚ × ℚ :=
  let e := ext.calc_planet_helio_ICRF (planet_table ids.EARTH).elements
    (planet_table ids.EARTH).rates (planet_table ids.EARTH).extras julian_date
  let p := ext.calc_planet_helio_ICRF (planet_table i).elements
    (planet_table i).rates (planet_table i).extras julian_date
  if i = ids.SUN then (-e.1, -e.2.1, -e.2.2) else (p.1 - e.1, p.2.1 - e.2.1, p.2.2 - e.2.2)

/-- Two planet tables carry the same orbital data at every index. -/
def same_orbits (t u : Nat → planet) : Prop :=
  ∀ j, (t j).elements = (u j).elements ∧ (t j).rates = (u j).rates ∧ (t j).extras = (u j).extras

/-! ## `core_render.c` -/

/-- The ncurses and `drawing.h` calls the renderer issues. `wattron`/`wattroff`
carry the argument of `COLOR_PAIR`. -/
inductive draw_call where
  | wattron (color_pair : Int)
  | wattroff (color_pair : Int)
  | mvwaddstr (y x : Int) (s : String)
  | mvwaddch (y x : Int) (c : Char)
  | draw_line_smooth (ya xa yb xb : Int)
  | draw_line_ASCII (ya xa yb xb : Int)
deriving DecidableEq

/-- The absolute value of `<math.h>` on exact values. -/
def fabs (v : ℚ) : ℚ := if v < 0 then -v else v

/-- Embedding of `render_object_stereo`: the object after the call and the drawing
calls issued. The coordinates are cached (lines 32-34) before the radius test
(lines 36-40). -/
def render_object_stereo (ext : astro) (win : window) (object : object_base)
    (rf : render_flags) : object_base × List draw_call :=
  let sphere := ext.horizontal_to_spherical object.azimuth object.altitude
  let polar := ext.project_stereographic_north 1 sphere.1 sphere.2
  let yx := ext.polar_to_win polar.1 polar.2 win.height win.width
  let object := { object with y := yx.1, x := yx.2 }
  if fabs polar.1 > 1 then
    (object, [])
  else
    let use_color := rf.color && object.color_pair != 0
    (object,
      (if use_color then [draw_call.wattron object.color_pair] else []) ++
      [if rf.unicode then draw_call.mvwaddstr yx.1 yx.2 object.symbol_unicode
        else draw_call.mvwaddch yx.1 yx.2 object.symbol_ASCII] ++
      (match object.label with
        | some label => [draw_call.mvwaddstr (yx.1 - 1) (yx.2 + 1) label]
        | none => []) ++
      (if use_color then [draw_call.wattroff object.color_pair] else []))

/-- The window cell `(y, x)` that `polar_to_win` returns for an object inside
`render_object_stereo` (lines 25-30). -/
def win_yx (ext : astro) (win : window) (object : object_base) : Int × Int :=
  ext.polar_to_win
    (ext.project_stereographic_north 1
      (ext.horizontal_to_spherical object.azimuth object.altitude).1
      (ext.horizontal_to_spherical object.azimuth object.altitude).2).1
    (ext.project_stereographic_north 1
      (ext.horizontal_to_spherical object.azimuth object.altitude).1
      (ext.horizontal_to_spherical object.azimuth object.altitude).2).2
    win.height win.width

/-- The read `star_table[k]` for a C `int` index. -/
def star_at (star_table : List star) (k : Int) : Option star :=
  if 0 ≤ k then star_table[k.toNat]? else none

/-- The loop of `render_stars_stereo` with `n` iterations left, at loop counter `i`.
Returns the table and, per call of `render_object_stereo`, the table index with the
drawing calls of that call. -/
def render_stars_loop (ext : astro) (win : window) (rf : render_flags)
    (num_by_mag : List Int) (threshold : ℚ) :
    Nat → Nat → List star → Except fault (List star × List (Int × List draw_call))
  | 0, _, star_table => .ok (star_table, [])
  | n + 1, i, star_table =>
    match num_by_mag[i]? with
    | none => .error (fault.num_by_mag_index i)
    | some catalog_num =>
      let table_index := catalog_num - 1
      match star_at star_table table_index with
      | none => .error (fault.star_table_index table_index)
      | some s =>
        if s.magnitude > threshold then
          render_stars_loop ext win rf num_by_mag threshold n (i + 1) star_table
        else
          let s := if s.magnitude > rf.label_thresh
            then { s with base := { s.base with label := none } } else s
          let r := render_object_stereo ext win s.base rf
          let star_table := star_table.set table_index.toNat { s with base := r.1 }
          match render_stars_loop ext win rf num_by_mag threshold n (i + 1) star_table with
          | .error f => .error f
          | .ok rest => .ok (rest.1, (table_index, r.2) :: rest.2)

/-- Embedding of `render_stars_stereo`; `num_stars` is the length of the table. -/
def render_stars_stereo (ext : astro) (win : window) (rf : render_flags)
    (star_table : List star) (num_by_mag : List Int) (threshold : ℚ) :
    Except fault (List star × List (Int × List draw_call)) :=
  render_stars_loop ext win rf num_by_mag threshold star_table.length 0 star_table

/-- The value of a C `int` expression whose exact result is `v`: the 32-bit
two's-complement value that `v` wraps to. -/
def wrap_int32 (v : Int) : Int := (v + 2147483648) % 4294967296 - 2147483648

/-- The body of the inner loop of `render_constells` for one segment once the cached
coordinates of its two stars are read (lines 131-157): the test for the cell
`(0, 0)`, the test of the line length, and the drawing calls. The differences
`ya - yb` and `xa - xb` of line 142 are C `int` subtractions. -/
def segment_draw (ext : astro) (rf : render_flags) (ya xa yb xb : Int) : List draw_call :=
  if (ya = 0 ∧ xa = 0) ∨ (yb = 0 ∧ xb = 0) then
    []
  else
    let line_length := ext.sqrt (
        ((wrap_int32 (ya - yb) : Int) : ℚ) ^ 2 +
          ((wrap_int32 (xa - xb) : Int) : ℚ) ^ 2)
    if line_length < 10000 then
      if rf.unicode then
        [draw_call.draw_line_smooth ya xa yb xb,
          draw_call.mvwaddstr ya xa "○", draw_call.mvwaddstr yb xb "○"]
      else
        [draw_call.draw_line_ASCII ya xa yb xb,
          draw_call.mvwaddch ya xa '+', draw_call.mvwaddch yb xb '+']
    else
      []

/-- The body of the inner loop of `render_constells` for one segment (lines
117-157), after the two catalog numbers have been read. -/
def render_segment (ext : astro) (rf : render_flags) (star_table : List star)
    (catalog_num_a catalog_num_b : Int) : Except fault (List draw_call) :=
  let table_index_a := catalog_num_a - 1
  let table_index_b := catalog_num_b - 1
  match star_at star_table table_index_a with
  | none => .error (fault.star_table_index table_index_a)
  | some star_a =>
    match star_at star_table table_index_b with
    | none => .error (fault.star_table_index table_index_b)
    | some star_b =>
      let ya := star_a.base.y
      let xa := star_a.base.x
      let yb := star_b.base.y
      let xb := star_b.base.x
      .ok (segment_draw ext rf ya xa yb xb)

/-- The loop `for (j = 0; j < num_segments * 2; j += 2)` with `n` iterations left, at
loop counter `j`. Returns per segment the two catalog numbers and the drawing calls. -/
def render_segments_loop (ext : astro) (rf : render_flags) (star_table : List star)
    (star_numbers : List Int) :
    Nat → Nat → Except fault (List (Int × Int × List draw_call))
  | 0, _ => .ok []
  | n + 1, j =>
    match star_numbers[j]? with
    | none => .error (fault.star_numbers_index j)
    | some catalog_num_a =>
      match star_numbers[j + 1]? with
      | none => .error (fault.star_numbers_index (j + 1))
      | some catalog_num_b =>
        match render_segment ext rf star_table catalog_num_a catalog_num_b with
        | .error f => .error f
        | .ok calls =>
          match render_segments_loop ext rf star_table star_numbers n (j + 2) with
          | .error f => .error f
          | .ok rest => .ok ((catalog_num_a, catalog_num_b, calls) :: rest)

/-- Embedding of `render_constells`; `num_const` is the length of the constellation
table. Returns, per segment in processing order, its two catalog numbers and the
drawing calls issued for it. -/
def render_constells (ext : astro) (rf : render_flags) :
    List constell → List star → Except fault (List (Int × Int × List draw_call))
  | [], _ => .ok []
  | constellation :: rest, star_table =>
    match render_segments_loop ext rf star_table constellation.star_numbers
        constellation.num_segments 0 with
    | .error f => .error f
    | .ok segs =>
      match render_constells ext rf rest star_table with
      | .error f => .error f
      | .ok more => .ok (segs ++ more)

/-- The loop `for (i = NUM_PLANETS - 1; i >= 0; --i)` of `render_planets_stereo`
with `n` iterations left, so at loop counter `n - 1`. Returns, per call of
`render_object_stereo`, the table index, the object as the call left it (the local
`planet_data.base`) and the drawing calls. -/
def render_planets_loop (ext : astro) (win : window) (rf : render_flags) (ids : planet_enum)
    (planet_table : Nat → planet) : Nat → List (Nat × object_base × List draw_call)
  | 0 => []
  | i + 1 =>
    if i = ids.EARTH then
      render_planets_loop ext win rf ids planet_table i
    else
      let planet_data := planet_table i
      let r := render_object_stereo ext win planet_data.base rf
      (i, r.1, r.2) :: render_planets_loop ext win rf ids planet_table i

/-- Embedding of `render_planets_stereo`. The first component is the caller's planet
table after the call: the function passes the address of the local copy
`planet_data` to `render_object_stereo` and never stores to `planet_table`. -/
def render_planets_stereo (ext : astro) (win : window) (rf : render_flags) (ids : planet_enum)
    (planet_table : Nat → planet) :
    (Nat → planet) × List (Nat × object_base × List draw_call) :=
  (planet_table, render_planets_loop ext win rf ids planet_table ids.NUM_PLANETS)

/-- Embedding of `render_moon_stereo`. The first component is the caller's moon
object after the call: the parameter `moon_object` is passed by value, so the store
of `render_object_stereo` goes to the callee's copy (second component). -/
def render_moon_stereo (ext : astro) (win : window) (rf : render_flags) (moon_object : moon) :
    moon × object_base × List draw_call :=
  let r := render_object_stereo ext win moon_object.base rf
  (moon_object, r.1, r.2)

/-- The loop of `render_stars_stereo` as a recursion over the catalog numbers it
reads, in reading order; `render_stars_loop_eq_list` relates it to the counter loop. -/
def render_stars_list (ext : astro) (win : window) (rf : render_flags) (threshold : ℚ) :
    List Int → List star → Except fault (List star × List (Int × List draw_call))
  | [], star_table => .ok (star_table, [])
  | catalog_num :: more, star_table =>
    let table_index := catalog_num - 1
    match star_at star_table table_index with
    | none => .error (fault.star_table_index table_index)
    | some s =>
      if s.magnitude > threshold then
        render_stars_list ext win rf threshold more star_table
      else
        let s := if s.magnitude > rf.label_thresh
          then { s with base := { s.base with label := none } } else s
        let r := render_object_stereo ext win s.base rf
        let star_table := star_table.set table_index.toNat { s with base := r.1 }
        match render_stars_list ext win rf threshold more star_table with
        | .error f => .error f
        | .ok rest => .ok (rest.1, (table_index, r.2) :: rest.2)

/-- The table entry of a star after the body of the loop of `render_stars_stereo`
has passed it to `render_object_stereo` (lines 91-97). -/
def rendered_star (ext : astro) (win : window) (rf : render_flags) (s : star) : star :=
  { s with base :=
      { s.base with
        y := (win_yx ext win s.base).1
        x := (win_yx ext win s.base).2
        label := if s.magnitude > rf.label_thresh then none else s.base.label } }

/-- The entry at table index `k` after `render_stars_stereo` has read the catalog
numbers `cs`: passed to `render_object_stereo` when its magnitude is at or below the
threshold and its catalog number `k + 1` was read, untouched otherwise. -/
def star_after (ext : astro) (win : window) (rf : render_flags) (threshold : ℚ)
    (cs : List Int) (k : Nat) (s : star) : star :=
  if s.magnitude ≤ threshold ∧ ((k : Int) + 1) ∈ cs then rendered_star ext win rf s else s

/-- The star at table index `k` is at or below the magnitude `threshold`, so the
loop of `render_stars_stereo` does not skip it. -/
def drawn_at (star_table : List star) (threshold : ℚ) (k : Int) : Bool :=
  match star_at star_table k with
  | some s => decide (s.magnitude ≤ threshold)
  | none => false

/-- The star with catalog number `c` has a magnitude above `threshold`. -/
def dimmer_at (star_table : List star) (threshold : ℚ) (c : Int) : Prop :=
  match star_at star_table (c - 1) with
  | some s => s.magnitude > threshold
  | none => False

instance (star_table : List star) (threshold : ℚ) (c : Int) :
    Decidable (dimmer_at star_table threshold c) := by
  unfold dimmer_at
  split <;> infer_instance

/-- The catalog data of a star entry is the same in `s` and `t`. -/
def catalog_fixed (s t : star) : Prop :=
  t.magnitude = s.magnitude ∧ t.right_ascension = s.right_ascension ∧
    t.declination = s.declination ∧ t.ra_motion = s.ra_motion ∧ t.dec_motion = s.dec_motion

/-- The catalog numbers of a list all lie in `[1, n]`. -/
def catalog_ok (n : Nat) (cs : List Int) : Prop :=
  ∀ c ∈ cs, 1 ≤ c ∧ c ≤ (n : Int)

instance (n : Nat) (cs : List Int) : Decidable (catalog_ok n cs) :=
  inferInstanceAs (Decidable (∀ c ∈ cs, 1 ≤ c ∧ c ≤ (n : Int)))

/-- A constellation whose `star_numbers` array holds two catalog numbers per segment,
all of them in `[1, n]`. -/
def constell_ok (n : Nat) (k : constell) : Prop :=
  2 * k.num_segments ≤ k.star_numbers.length ∧
    catalog_ok n (k.star_numbers.take (2 * k.num_segments))

instance (n : Nat) (k : constell) : Decidable (constell_ok n k) :=
  inferInstanceAs (Decidable (_ ∧ _))

/-- The pairs of catalog numbers of the first `n` segments of a `star_numbers`
array, in array order. -/
def segment_ends : List Int → Nat → List (Int × Int)
  | a :: b :: more, n + 1 => (a, b) :: segment_ends more n
  | _, _ => []

/-- The pairs of catalog numbers of all segments of a constellation table, in
table order. -/
def all_segment_ends : List constell → List (Int × Int)
  | [] => []
  | k :: more => segment_ends k.star_numbers k.num_segments ++ all_segment_ends more

/-- One frame of the star passes of the render loop of `main`: `update_star_positions`
followed by `render_stars_stereo`. -/
def star_frame (ext : astro) (rf : render_flags) (num_by_mag : List Int) (threshold : ℚ)
    (latitude longitude : ℚ) (win : window) (julian_date : ℚ) (star_table : List star) :
    Except fault (List star × List (Int × List draw_call)) :=
  render_stars_stereo ext win rf
    (update_star_positions ext star_table julian_date latitude longitude) num_by_mag threshold

/-- Any number of frames of the star passes, one per element of `frames`, each with
the window and the julian date of its frame. -/
def star_frames (ext : astro) (rf : render_flags) (num_by_mag : List Int) (threshold : ℚ)
    (latitude longitude : ℚ) : List (window × ℚ) → List star → Except fault (List star)
  | [], star_table => .ok star_table
  | frame :: later, star_table =>
    match star_frame ext rf num_by_mag threshold latitude longitude frame.1 frame.2 star_table with
    | .error f => .error f
    | .ok r => star_frames ext rf num_by_mag threshold latitude longitude later r.1

/-! ## `main.c`: options -/

/-- A value of a C `double` as `atof` can return it: a number, an infinity or NaN.
The numbers are exact. -/
inductive c_double where
  | finite (v : ℚ)
  | pos_inf
  | neg_inf
  | nan
deriving DecidableEq

/-- The comparison `<` of C on doubles: false whenever an operand is NaN. -/
def c_double.lt : c_double → c_double → Prop
  | .finite a, .finite b => a < b
  | .finite _, .pos_inf => True
  | .neg_inf, .finite _ => True
  | .neg_inf, .pos_inf => True
  | _, _ => False

instance : LT c_double := ⟨c_double.lt⟩

instance (a b : c_double) : Decidable (a < b) := by
  show Decidable (c_double.lt a b)
  unfold c_double.lt
  split <;> infer_instance

/-- The product `*` of C on doubles, without rounding: NaN if an operand is NaN or
if zero meets an infinity. -/
def c_double.mul : c_double → c_double → c_double
  | .nan, _ => .nan
  | _, .nan => .nan
  | .finite a, .finite b => .finite (a * b)
  | .finite a, .pos_inf => if 0 < a then .pos_inf else if a < 0 then .neg_inf else .nan
  | .finite a, .neg_inf => if 0 < a then .neg_inf else if a < 0 then .pos_inf else .nan
  | .pos_inf, .finite b => if 0 < b then .pos_inf else if b < 0 then .neg_inf else .nan
  | .neg_inf, .finite b => if 0 < b then .neg_inf else if b < 0 then .pos_inf else .nan
  | .pos_inf, .pos_inf => .pos_inf
  | .pos_inf, .neg_inf => .neg_inf
  | .neg_inf, .pos_inf => .neg_inf
  | .neg_inf, .neg_inf => .pos_inf

/-- The product of a double variable and a constant, as in `latitude *= M_PI / 180.0`. -/
instance : HMul c_double ℚ c_double := ⟨fun a c => c_double.mul a (.finite c)⟩

/-- The double is a number within `[lo, hi]`; false of NaN and the infinities. -/
def c_double.within (a : c_double) (lo hi : ℚ) : Prop :=
  match a with
  | .finite v => lo ≤ v ∧ v ≤ hi
  | _ => False

instance (a : c_double) (lo hi : ℚ) : Decidable (a.within lo hi) := by
  unfold c_double.within
  split <;> infer_instance

/-- The global option variables of `main.c` (lines 16-31). The variables assigned
from `atof` are doubles with NaN and the infinities; the four flags are the C `int`s
set to `TRUE` or `FALSE`. -/
structure options where
  longitude : c_double
  latitude : c_double
  dt_string_utc : Option String
  threshold : c_double
  label_thresh : c_double
  fps : Int
  animation_mult : c_double
  julian_date : ℚ
  unicode_flag : Bool
  color_flag : Bool
  grid_flag : Bool
  constell_flag : Bool
deriving DecidableEq

/-- The initial values of the option variables (lines 17-31). -/
def default_options : options where
  longitude := .finite (-71.057083)
  latitude := .finite 42.361145
  dt_string_utc := none
  threshold := .finite 3
  label_thresh := .finite (1 / 2)
  fps := 24
  animation_mult := .finite 1
  julian_date := 0
  unicode_flag := true
  color_flag := false
  grid_flag := false
  constell_flag := false

/-- The long options that `getopt_long` handles itself by storing to a flag. -/
inductive long_flag where
  | color
  | constellations
  | grid
  | no_unicode
deriving DecidableEq

/-- One return of `getopt_long` other than `-1`, by the `case` of the `switch` of
`parse_options` it reaches (lines 204-283). -/
inductive getopt_return where
  | flag_stored (f : long_flag)
  | regular_argument (optarg : String)
  | a (optarg : String)
  | d (optarg : String)
  | f (optarg : String)
  | h
  | l (optarg : String)
  | m (optarg : String)
  | o (optarg : String)
  | t (optarg : String)
  | unrecognized (optopt : Int)
  | missing (optopt : Int)
  | other (c : Int)
deriving DecidableEq

/-- The argument of `exit`. -/
inductive exit_status where
  | EXIT_SUCCESS
  | EXIT_FAILURE
deriving DecidableEq

/-- Modelled from the spec: `struct tm` of `<time.h>`, filled by `string_to_time`. -/
structure tm where
  tm_year : Int
  tm_mon : Int
  tm_mday : Int
  tm_hour : Int
  tm_min : Int
  tm_sec : Int
deriving DecidableEq

/-- The functions `main.c` calls whose bodies are not in the sources: `atof` and
`atoi` of `<stdlib.h>` and the time functions of `astro.h`, and the conversion
`(float)` of a double. `string_to_time` returns `none` for the C `false`. -/
structure libc where
  atof : String → c_double
  atoi : String → Int
  to_float : c_double → c_double
  current_julian_date : ℚ
  string_to_time : String → Option tm
  datetime_to_julian_date : tm → ℚ

/-- The store `getopt_long` performs for a flag option (table at lines 193-196). -/
def store_flag (st : options) : long_flag → options
  | .color => { st with color_flag := true }
  | .constellations => { st with constell_flag := true }
  | .grid => { st with grid_flag := true }
  | .no_unicode => { st with unicode_flag := false }

/-- The `switch` of `parse_options` for one return of `getopt_long`: the option
variables afterwards, or the status the run exits with. -/
def parse_option (sys : libc) (st : options) : getopt_return → Except exit_status options
  | .flag_stored f => .ok (store_flag st f)
  | .regular_argument _ => .error .EXIT_FAILURE
  | .a optarg =>
    let st := { st with latitude := sys.atof optarg }
    if st.latitude < c_double.finite (-90) ∨ st.latitude > c_double.finite 90 then
      .error .EXIT_FAILURE
    else .ok st
  | .d optarg => .ok { st with dt_string_utc := some optarg }
  | .f optarg =>
    let st := { st with fps := sys.atoi optarg }
    if st.fps < 1 then .error .EXIT_FAILURE else .ok st
  | .h => .error .EXIT_SUCCESS
  | .l optarg => .ok { st with label_thresh := sys.to_float (sys.atof optarg) }
  | .m optarg => .ok { st with animation_mult := sys.to_float (sys.atof optarg) }
  | .o optarg =>
    let st := { st with longitude := sys.atof optarg }
    if st.longitude < c_double.finite (-180) ∨ st.longitude > c_double.finite 180 then
      .error .EXIT_FAILURE
    else .ok st
  | .t optarg => .ok { st with threshold := sys.to_float (sys.atof optarg) }
  | .unrecognized _ => .error .EXIT_FAILURE
  | .missing _ => .error .EXIT_FAILURE
  | .other _ => .error .EXIT_FAILURE

/-- Embedding of `parse_options`: the `while (true)` loop over the returns of
`getopt_long` up to its `-1`. -/
def parse_options (sys : libc) : List getopt_return → options → Except exit_status options
  | [], st => .ok st
  | r :: more, st =>
    match parse_option sys st r with
    | .error status => .error status
    | .ok st => parse_options sys more st

/-- The constant `M_PI` (line 292). -/
def M_PI : ℚ := 3.14159265358979323846

/-- Embedding of `convert_options` (lines 289-318). -/
def convert_options (sys : libc) (st : options) : Except exit_status options :=
  let st := { st with longitude := st.longitude * (M_PI / 180) }
  let st := { st with latitude := st.latitude * (M_PI / 180) }
  match st.dt_string_utc with
  | none => .ok { st with julian_date := sys.current_julian_date }
  | some dt_string =>
    match sys.string_to_time dt_string with
    | none => .error .EXIT_FAILURE
    | some datetime => .ok { st with julian_date := sys.datetime_to_julian_date datetime }

/-- The latitude in degrees in force after the given returns of `getopt_long`: the
value of the last `-a`, the present value `v` without one. -/
def given_latitude (sys : libc) : List getopt_return → c_double → c_double
  | [], v => v
  | .a optarg :: more, _ => given_latitude sys more (sys.atof optarg)
  | _ :: more, v => given_latitude sys more v

/-- The longitude in degrees in force after the given returns of `getopt_long`: the
value of the last `-o`, the present value `w` without one. -/
def given_longitude (sys : libc) : List getopt_return → c_double → c_double
  | [], w => w
  | .o optarg :: more, _ => given_longitude sys more (sys.atof optarg)
  | _ :: more, w => given_longitude sys more w

/-- What the two range tests of `parse_options` leave through: a latitude and a
longitude that are each NaN or a number within the accepted range in degrees. -/
def degrees_ok (st : options) : Prop :=
  (st.latitude = .nan ∨ st.latitude.within (-90) 90) ∧
    (st.longitude = .nan ∨ st.longitude.within (-180) 180)

/-- A stand-in for `<stdlib.h>` and the time functions: `atof` gives NaN for the
string "nan", as the C library does, and 0 for every other string. -/
def demo_libc : libc where
  atof := fun optarg => if optarg = "nan" then .nan else .finite 0
  atoi := fun _ => 0
  to_float := fun v => v
  current_julian_date := 2451545
  string_to_time := fun _ => none
  datetime_to_julian_date := fun _ => 0

/-! ## A small concrete instance -/

/-- A stand-in for the functions outside the sources, with angles in quarter turns:
the altitude is the declination, the planar radius is the zenith distance
`1 - altitude` (0 at the zenith, 1 on the horizon, above 1 below the horizon), and
`polar_to_win` has one cell for radii up to 1 and one for larger radii. -/
def demo_astro : astro where
  greenwich_mean_sidereal_time_rad := fun _ => 0
  calc_star_position := fun ra _ dec _ _ => (ra, dec)
  calc_planet_helio_ICRF := fun e _ _ _ => (e.a, e.e, e.I)
  calc_moon_geo_ICRF := fun e _ _ => (e.a, e.e, e.I)
  equatorial_rectangular_to_spherical := fun xg yg _ => (xg, yg)
  equatorial_to_horizontal := fun ra dec _ _ _ => (ra, dec)
  horizontal_to_spherical := fun azimuth altitude => (azimuth, 1 - altitude)
  project_stereographic_north := fun _ theta phi => (phi, theta)
  polar_to_win := fun r _ _ _ => if r ≤ 1 then (2, 3) else (5, 7)
  sqrt := fun v => if v = 25 then 5 else v

/-- A window of 24 rows and 48 columns. -/
def demo_win : window := { height := 24, width := 48 }

/-- Unicode output without colour, labels up to magnitude 2. -/
def demo_rf : render_flags := { unicode := true, color := false, label_thresh := 2 }

/-- A star of the given magnitude at the given altitude, with cached cell `(0, 0)`. -/
def demo_star (magnitude altitude : ℚ) (label : Option String) : star where
  base :=
    { y := 0, x := 0, azimuth := 0, altitude := altitude, color_pair := 0,
      symbol_ASCII := '*', symbol_unicode := "*", label := label }
  magnitude := magnitude
  right_ascension := 0
  declination := altitude
  ra_motion := 0
  dec_motion := 0

/-- An object at the given altitude with cached cell `(0, 0)`. -/
def demo_base (altitude : ℚ) : object_base :=
  { y := 0, x := 0, azimuth := 0, altitude := altitude, color_pair := 0,
    symbol_ASCII := 'o', symbol_unicode := "o", label := none }

/-- The planet enumeration with the Sun first and the Earth fourth of nine. -/
def demo_ids : planet_enum := { SUN := 0, EARTH := 3, NUM_PLANETS := 9 }

/-- A planet table with every entry at the zenith and cached cell `(0, 0)`. -/
def demo_planets : Nat → planet := fun _ =>
  { base := demo_base 1
    elements := { a := 1, e := 0, I := 0, M := 0, w := 0, O := 0 }
    rates := { da := 0, de := 0, dI := 0, dM := 0, dw := 0, dO := 0 }
    extras := { terms := [] } }

/-- A moon object at the zenith with cached cell `(0, 0)`. -/
def demo_moon : moon :=
  { base := demo_base 1
    elements := { a := 1, e := 0, I := 0, M := 0, w := 0, O := 0 }
    rates := { da := 0, de := 0, dI := 0, dM := 0, dw := 0, dO := 0 } }

/-! ## `main.c`: `convert_options` with its calls -/

/-- A call of one of the three time functions of `astro.h`. -/
inductive time_call where
  | current_julian_date
  | string_to_time (dt_string : String)
  | datetime_to_julian_date (datetime : tm)
deriving DecidableEq

/-- Embedding of `convert_options` (lines 289-318) that keeps what `convert_options`
drops: the option variables when the function returns or calls `exit`, the status
of `exit` if it was called, and the calls of the time functions in order. -/
def convert_options_run (sys : libc) (st : options) :
    options × Option exit_status × List time_call :=
  let st := { st with longitude := st.longitude * (M_PI / 180) }
  let st := { st with latitude := st.latitude * (M_PI / 180) }
  match st.dt_string_utc with
  | none =>
    ({ st with julian_date := sys.current_julian_date }, none, [time_call.current_julian_date])
  | some dt_string =>
    match sys.string_to_time dt_string with
    | none => (st, some .EXIT_FAILURE, [time_call.string_to_time dt_string])
    | some datetime =>
      ({ st with julian_date := sys.datetime_to_julian_date datetime }, none,
        [time_call.string_to_time dt_string, time_call.datetime_to_julian_date datetime])

/-! ## `core_position.c`: the phase of the Moon -/

/-- The functions of `<math.h>` used by `update_moon_phase` and
`render_azimuthal_grid`; their bodies are not in the sources. -/
structure libm where
  atan2 : ℚ → ℚ → ℚ
  sin : ℚ → ℚ

/-- Modelled from the spec: `calc_moon_phase` of `astro.h`, whose body is not in the
sources. The spec takes the angular separation between the Sun's geocentric
ecliptic longitude and the Moon's mean longitude over `[0, 2π)`; the caller maps
the result from the range `0.0 .. 1.0`, so the separation is returned as a fraction
of the full circle. -/
def calc_moon_phase (sun_ecliptic_long moon_true_long : ℚ) : ℚ :=
  Int.fract ((moon_true_long - sun_ecliptic_long) / (2 * M_PI))

/-- Modelled from the spec: `map_float_to_int_range` of `coord.h`, whose body is not
in the sources. The spec discretizes the range into equal bins, one per integer of
`min_int .. max_int` (8 bins for the phase), over the half-open range
`[min_float, max_float)`. -/
def map_float_to_int_range (min_float max_float : ℚ) (min_int max_int : Int) (input : ℚ) :
    Int :=
  min_int + ⌊(input - min_float) / (max_float - min_float) * ((max_int - min_int + 1 : Int) : ℚ)⌋

/-- The table `moon_phases` of `update_moon_phase` (line 143). -/
def moon_phases : List String := ["🌑︎", "🌒︎", "🌓︎", "🌔︎", "🌕︎", "🌖︎", "🌗︎", "🌘︎"]

/-- The value `phase_index` of `update_moon_phase` (lines 121-145). -/
def moon_phase_index (ext : astro) (m : libm) (ids : planet_enum) (planet_table : Nat → planet)
    (moon_object : moon) (julian_date : ℚ) : Int :=
  let e := ext.calc_planet_helio_ICRF (planet_table ids.EARTH).elements
    (planet_table ids.EARTH).rates (planet_table ids.EARTH).extras julian_date
  let xe := e.1 * -1
  let ye := e.2.1 * -1
  let sun_ecliptic_long := m.atan2 ye xe
  let d := julian_date - 2451544.5
  let O := moon_object.elements.O + moon_object.rates.dO * d
  let w := moon_object.elements.w + moon_object.rates.dw * d
  let M := moon_object.elements.M + moon_object.rates.dM * d
  let moon_true_long := O + w + M
  let phase := calc_moon_phase sun_ecliptic_long moon_true_long
  map_float_to_int_range 0 1 0 7 phase

/-- Embedding of `update_moon_phase`: the moon object afterwards, or the index of a
read outside `moon_phases`. -/
def update_moon_phase (ext : astro) (m : libm) (ids : planet_enum) (planet_table : Nat → planet)
    (moon_object : moon) (julian_date : ℚ) : Except Int moon :=
  let phase_index := moon_phase_index ext m ids planet_table moon_object julian_date
  match (if 0 ≤ phase_index then moon_phases[phase_index.toNat]? else none) with
  | none => .error phase_index
  | some moon_char =>
    .ok { moon_object with base := { moon_object.base with symbol_unicode := moon_char } }

/-! ## `core_render.c`: the azimuthal grid -/

/-- Embedding of `gcd` (lines 190-201); `%` of C is the truncating remainder. -/
def gcd (a b : Int) : Int :=
  if h : b ≠ 0 then
    have : (a.tmod b).natAbs < b.natAbs := by
      have hb : 0 < b.natAbs := Int.natAbs_pos.mpr h
      cases a <;> cases b <;>
        simp only [Int.tmod, Int.natAbs_ofNat, Int.natAbs_neg, Int.natAbs_negSucc,
          Int.ofNat_eq_coe, Int.natAbs_cast] at hb ⊢ <;>
        exact Nat.mod_lt _ hb
    gcd b (a.tmod b)
  else a
termination_by b.natAbs

/-- Embedding of `compare_angles` (lines 203-208); `/` of C is the truncating
division and the result of `<` is the `int` 1 or 0. -/
def compare_angles (x y : Int) : Int :=
  if (90 : Int).tdiv (gcd x 90) < (90 : Int).tdiv (gcd y 90) then 1 else 0

/-- The rendering priority `90 / gcd(x, 90)` that `compare_angles` compares. -/
def angle_priority (x : Int) : Int := (90 : Int).tdiv (gcd x 90)

/-- The function `round` of `<math.h>` on exact values: to the nearest integer,
halfway cases away from zero. -/
def c_round (v : ℚ) : Int := if 0 ≤ v then ⌊v + 1 / 2⌋ else ⌈v - 1 / 2⌉

/-- The value `rad_vertical` of `render_azimuthal_grid` (lines 214-219). -/
def rad_vertical_of (win : window) : Int := c_round (((win.height - 1 : Int) : ℚ) / 2)

/-- The array `step_sizes` (line 223). -/
def step_sizes : List Int := [10, 15, 30, 45, 90]

/-- The constant `min_height` (line 227). -/
def min_height : Int := 10

/-- The read `step_sizes[i]` for a C `int` index. -/
def step_at (i : Int) : Option Int :=
  if 0 ≤ i then step_sizes[i.toNat]? else none

/-- The number of rows `round(rad_vertical * sin(inc * to_rad))` that the test of
line 235 compares with `min_height`. -/
def grid_rows (m : libm) (rad_vertical inc : Int) : Int :=
  c_round ((rad_vertical : ℚ) * m.sin ((inc : ℚ) * (M_PI / 180)))

/-- The loop `for (i = length - 1; i >= 0; --i)` of lines 232-240 at loop counter
`i = n - 1`, with the present value of `inc`. Returns the value of `inc` after the
loop, or the index of a read outside `step_sizes`. -/
def select_inc_loop (m : libm) (rad_vertical : Int) : Nat → Int → Except Int Int
  | 0, inc => .ok inc
  | n + 1, _ =>
    match step_at (n : Int) with
    | none => .error (n : Int)
    | some inc =>
      if grid_rows m rad_vertical inc < min_height then
        match step_at ((n : Int) - 1) with
        | none => .error ((n : Int) - 1)
        | some inc => .ok inc
      else
        select_inc_loop m rad_vertical n inc

/-- The step-size selection of `render_azimuthal_grid` (lines 222-240); `inc0` is the
indeterminate value of the uninitialised `inc`. -/
def select_inc (m : libm) (rad_vertical inc0 : Int) : Except Int Int :=
  select_inc_loop m rad_vertical step_sizes.length inc0

/-- The grid angles `angles[i] = inc * i` for `i < number_angles = 90 / inc + 1`
(lines 243-250), before sorting. -/
def grid_angles (inc : Int) : List Int :=
  (List.range ((90 : Int).tdiv inc + 1).toNat).map (fun i : Nat => inc * (i : Int))

/-- The smallest entry of `step_sizes` that yields at least `min_height` rows, if
there is one: the increment the comments of lines 229 and 237 describe. -/
def smallest_desirable (m : libm) (rad_vertical : Int) : Option Int :=
  step_sizes.find? (fun s => decide (min_height ≤ grid_rows m rad_vertical s))

/-- A stand-in for `<math.h>`: the sine correct to five decimals at the five step
sizes in radians. -/
def demo_libm : libm where
  atan2 := fun _ _ => 0
  sin := fun v =>
    if v = 90 * (M_PI / 180) then 1
    else if v = 45 * (M_PI / 180) then 0.70711
    else if v = 30 * (M_PI / 180) then 0.5
    else if v = 15 * (M_PI / 180) then 0.25882
    else if v = 10 * (M_PI / 180) then 0.17365
    else 0

/-! ## Theorems -/

theorem same_orbits_step (ext : astro) (ids : planet_enum) (gmst jd lat lon : ℚ)
    (t u : Nat → planet) (i : Nat) (h : same_orbits t u) :
    same_orbits (update_planet_step ext ids gmst jd lat lon t i).1 u := by
  intro j
  by_cases hj : j = i
  · subst hj
    simpa [update_planet_step] using h j
  · simpa [update_planet_step, Function.update_noteq hj] using h j

theorem planet_geocentric_eq_spec (ext : astro) (ids : planet_enum) (t u : Nat → planet)
    (jd : ℚ) (i : Nat) (h : same_orbits t u) :
    planet_geocentric ext ids t jd i = geocentric_spec ext ids u jd i := by
  unfold planet_geocentric geocentric_spec
  rw [(h ids.EARTH).1, (h ids.EARTH).2.1, (h ids.EARTH).2.2, (h i).1, (h i).2.1, (h i).2.2]

theorem update_planet_loop_trace (ext : astro) (ids : planet_enum) (gmst jd lat lon : ℚ)
    (u : Nat → planet) (n : Nat) :
    ∀ (i : Nat) (t : Nat → planet), same_orbits t u →
      (update_planet_loop ext ids gmst jd lat lon n i t).2 =
        (List.range' i n).map (fun k => (k, geocentric_spec ext ids u jd k)) := by
  induction n with
  | zero => intro i t _; rfl
  | succ n ih =>
    intro i t h
    simp only [update_planet_loop, List.range'_succ, List.map_cons]
    rw [ih (i + 1) _ (same_orbits_step ext ids gmst jd lat lon t u i h)]
    simp [update_planet_step, planet_geocentric_eq_spec ext ids t u jd i h]

/-- C1: in `update_planet_positions`, for every planet table and julian date, the
vectors handed to `equatorial_rectangular_to_spherical` are, for the indices
`SUN, ..., NUM_PLANETS - 1` in this order, `(-xe, -ye, -ze)` at index `SUN` and
`(xi - xe, yi - ye, zi - ze)` at every other index `i`, with `(xe, ye, ze)` and
`(xi, yi, zi)` the results of `calc_planet_helio_ICRF` on the `EARTH` entry and on
entry `i` of the table as it was given, at the same julian date. -/
theorem C1_geocentric_vectors (ext : astro) (ids : planet_enum) (planet_table : Nat → planet)
    (julian_date latitude longitude : ℚ) :
    (update_planet_positions ext ids planet_table julian_date latitude longitude).2 =
      (List.range' ids.SUN (ids.NUM_PLANETS - ids.SUN)).map (fun i =>
        (i,
          if i = ids.SUN then
            (-(ext.calc_planet_helio_ICRF (planet_table ids.EARTH).elements
                (planet_table ids.EARTH).rates (planet_table ids.EARTH).extras julian_date).1,
             -(ext.calc_planet_helio_ICRF (planet_table ids.EARTH).elements
                (planet_table ids.EARTH).rates (planet_table ids.EARTH).extras julian_date).2.1,
             -(ext.calc_planet_helio_ICRF (planet_table ids.EARTH).elements
                (planet_table ids.EARTH).rates (planet_table ids.EARTH).extras julian_date).2.2)
          else
            ((ext.calc_planet_helio_ICRF (planet_table i).elements
                (planet_table i).rates (planet_table i).extras julian_date).1 -
              (ext.calc_planet_helio_ICRF (planet_table ids.EARTH).elements
                (planet_table ids.EARTH).rates (planet_table ids.EARTH).extras julian_date).1,
             (ext.calc_planet_helio_ICRF (planet_table i).elements
                (planet_table i).rates (planet_table i).extras julian_date).2.1 -
              (ext.calc_planet_helio_ICRF (planet_table ids.EARTH).elements
                (planet_table ids.EARTH).rates (planet_table ids.EARTH).extras julian_date).2.1,
             (ext.calc_planet_helio_ICRF (planet_table i).elements
                (planet_table i).rates (planet_table i).extras julian_date).2.2 -
              (ext.calc_planet_helio_ICRF (planet_table ids.EARTH).elements
                (planet_table ids.EARTH).rates (planet_table ids.EARTH).extras julian_date).2.2))) := by
  unfold update_planet_positions
  rw [update_planet_loop_trace ext ids _ julian_date latitude longitude planet_table _ _ _
    (fun _ => ⟨rfl, rfl, rfl⟩)]
  rfl

theorem render_object_stereo_fst (ext : astro) (win : window) (object : object_base)
    (rf : render_flags) :
    (render_object_stereo ext win object rf).1 =
      { object with y := (win_yx ext win object).1, x := (win_yx ext win object).2 } := by
  unfold render_object_stereo win_yx
  dsimp only
  split_ifs <;> rfl

theorem render_planets_loop_indices (ext : astro) (win : window) (rf : render_flags)
    (ids : planet_enum) (planet_table : Nat → planet) (n : Nat) :
    (render_planets_loop ext win rf ids planet_table n).map (fun c => c.1) =
      ((List.range n).reverse).filter (fun i => decide (i ≠ ids.EARTH)) := by
  induction n with
  | zero => rfl
  | succ n ih =>
    unfold render_planets_loop
    rw [List.range_succ, List.reverse_append, List.reverse_singleton, List.singleton_append]
    by_cases h : n = ids.EARTH
    · rw [if_pos h, ih, List.filter_cons_of_neg (by simp [h])]
    · rw [if_neg h, List.filter_cons_of_pos (by simp [h])]
      simp [ih]

/-- C6: for every planet table, `render_planets_stereo` calls `render_object_stereo`
for the indices `NUM_PLANETS - 1, ..., 0` without `EARTH`, in this descending order:
once for every index below `NUM_PLANETS` other than `EARTH`, never for `EARTH`, and
each call is made on the base of the table entry of its index. -/
theorem C6_planets_descending_without_earth (ext : astro) (win : window) (rf : render_flags)
    (ids : planet_enum) (planet_table : Nat → planet) :
    (render_planets_stereo ext win rf ids planet_table).2.map (fun c => c.1) =
        ((List.range ids.NUM_PLANETS).reverse).filter (fun i => decide (i ≠ ids.EARTH)) ∧
    (∀ i, ((render_planets_stereo ext win rf ids planet_table).2.map (fun c => c.1)).count i =
        if i < ids.NUM_PLANETS ∧ i ≠ ids.EARTH then 1 else 0) ∧
    ((render_planets_stereo ext win rf ids planet_table).2.map (fun c => c.1)).Sorted
        (fun i j => i > j) ∧
    (∀ c ∈ (render_planets_stereo ext win rf ids planet_table).2,
        (c.2.1, c.2.2) = render_object_stereo ext win (planet_table c.1).base rf) := by
  have hidx := render_planets_loop_indices ext win rf ids planet_table ids.NUM_PLANETS
  have hsorted : (((List.range ids.NUM_PLANETS).reverse).filter
      (fun i => decide (i ≠ ids.EARTH))).Sorted (fun i j => i > j) := by
    apply List.Sorted.filter
    have := List.sorted_lt_range ids.NUM_PLANETS
    simpa [List.Sorted, List.pairwise_reverse] using this
  refine ⟨hidx, ?_, ?_, ?_⟩
  · intro i
    unfold render_planets_stereo
    dsimp only
    rw [hidx]
    have hnd : (((List.range ids.NUM_PLANETS).reverse).filter
        (fun i => decide (i ≠ ids.EARTH))).Nodup := hsorted.imp (fun h => ne_of_gt h)
    by_cases hi : i < ids.NUM_PLANETS ∧ i ≠ ids.EARTH
    · rw [if_pos hi]
      apply List.count_eq_one_of_mem hnd
      simp [List.mem_filter, hi.1, hi.2]
    · rw [if_neg hi]
      apply List.count_eq_zero_of_not_mem
      simp only [List.mem_filter, List.mem_reverse, List.mem_range, decide_eq_true_eq]
      exact hi
  · unfold render_planets_stereo
    dsimp only
    rw [hidx]
    exact hsorted
  · unfold render_planets_stereo
    dsimp only
    generalize ids.NUM_PLANETS = n
    induction n with
    | zero => intro c hc; simp [render_planets_loop] at hc
    | succ n ih =>
      intro c hc
      unfold render_planets_loop at hc
      split_ifs at hc with h
      · exact ih c hc
      · rcases List.mem_cons.mp hc with rfl | hc
        · rfl
        · exact ih c hc

/-! ### The star loop -/

theorem drop_cons_getElem? {α : Type} (l : List α) (i : Nat) (c : α) (t : List α)
    (h : l.drop i = c :: t) : l[i]? = some c ∧ l.drop (i + 1) = t := by
  constructor
  · have := List.getElem?_drop (L := l) (i := i) (j := 0)
    rw [h] at this
    simpa using this.symm
  · have := List.drop_drop 1 i l
    rw [h] at this
    simpa [Nat.add_comm] using this.symm

theorem render_stars_loop_eq_list (ext : astro) (win : window) (rf : render_flags)
    (num_by_mag : List Int) (threshold : ℚ) :
    ∀ (l : List Int) (i : Nat) (suf : List Int) (T : List star),
      num_by_mag.drop i = l ++ suf →
      render_stars_loop ext win rf num_by_mag threshold l.length i T =
        render_stars_list ext win rf threshold l T := by
  intro l
  induction l with
  | nil => intro i suf T _; rfl
  | cons c l ih =>
    intro i suf T h
    obtain ⟨h1, h2⟩ := drop_cons_getElem? num_by_mag i c (l ++ suf) h
    simp only [List.length_cons, render_stars_loop, render_stars_list, h1]
    cases hs : star_at T (c - 1) with
    | none => rfl
    | some s =>
      dsimp only
      by_cases hm : s.magnitude > threshold
      · rw [if_pos hm, if_pos hm]
        exact ih (i + 1) suf T h2
      · rw [if_neg hm, if_neg hm, ih (i + 1) suf _ h2]

theorem render_stars_stereo_eq_list (ext : astro) (win : window) (rf : render_flags)
    (star_table : List star) (num_by_mag : List Int) (threshold : ℚ)
    (hlen : star_table.length ≤ num_by_mag.length) :
    render_stars_stereo ext win rf star_table num_by_mag threshold =
      render_stars_list ext win rf threshold (num_by_mag.take star_table.length) star_table := by
  unfold render_stars_stereo
  have h := render_stars_loop_eq_list ext win rf num_by_mag threshold
    (num_by_mag.take star_table.length) 0 (num_by_mag.drop star_table.length) star_table
    (by simp)
  rw [List.length_take, Nat.min_eq_left hlen] at h
  exact h

theorem star_at_of_range (T : List star) (c : Int) (h1 : 1 ≤ c) (h2 : c ≤ (T.length : Int)) :
    ∃ s, star_at T (c - 1) = some s ∧ T[(c - 1).toNat]? = some s ∧
      (c - 1).toNat < T.length ∧ (((c - 1).toNat : Nat) : Int) = c - 1 := by
  have hlt : (c - 1).toNat < T.length := by omega
  refine ⟨T[(c - 1).toNat], ?_, ?_, hlt, by omega⟩
  · unfold star_at
    rw [if_pos (by omega)]
    exact List.getElem?_eq_getElem hlt
  · exact List.getElem?_eq_getElem hlt

theorem rendered_star_eq_body (ext : astro) (win : window) (rf : render_flags) (s : star) :
    ({ (if s.magnitude > rf.label_thresh
          then { s with base := { s.base with label := none } } else s) with
        base := (render_object_stereo ext win
          (if s.magnitude > rf.label_thresh
            then { s with base := { s.base with label := none } } else s).base rf).1 } : star) =
      rendered_star ext win rf s := by
  rw [render_object_stereo_fst]
  unfold rendered_star
  split_ifs with h <;> rfl

theorem rendered_star_idem (ext : astro) (win : window) (rf : render_flags) (s : star) :
    rendered_star ext win rf (rendered_star ext win rf s) = rendered_star ext win rf s := by
  unfold rendered_star
  by_cases h : s.magnitude > rf.label_thresh <;> simp [h, win_yx]

theorem drawn_at_set (T : List star) (thr : ℚ) (j : Nat) (s s' : star)
    (hj : T[j]? = some s) (hm : s'.magnitude = s.magnitude) :
    drawn_at (T.set j s') thr = drawn_at T thr := by
  funext k
  unfold drawn_at star_at
  by_cases hk : 0 ≤ k
  · simp only [hk, if_true]
    by_cases hjk : j = k.toNat
    · subst hjk
      have hlt : k.toNat < T.length := (List.getElem?_eq_some_iff.mp hj).1
      rw [List.getElem?_set_self hlt, hj]
      simp [hm]
    · rw [List.getElem?_set_ne hjk]
  · simp only [hk, if_false]

theorem render_stars_list_spec (ext : astro) (win : window) (rf : render_flags) (thr : ℚ) :
    ∀ (l : List Int) (T : List star), catalog_ok T.length l →
      ∃ r, render_stars_list ext win rf thr l T = .ok r ∧ r.1.length = T.length ∧
        (∀ k : Nat, r.1[k]? = (T[k]?).map (star_after ext win rf thr l k)) ∧
        r.2.map (fun c => c.1) = (l.map (fun c => c - 1)).filter (drawn_at T thr) := by
  intro l
  induction l with
  | nil =>
    intro T _
    refine ⟨(T, []), rfl, rfl, ?_, rfl⟩
    intro k
    cases T[k]? <;> simp [star_after]
  | cons c l ih =>
    intro T hok
    have hc := hok c (List.mem_cons_self c l)
    have hl : catalog_ok T.length l := fun d hd => hok d (List.mem_cons_of_mem c hd)
    obtain ⟨s, hs, hget, hlt, hcast⟩ := star_at_of_range T c hc.1 hc.2
    simp only [render_stars_list, hs]
    by_cases hm : s.magnitude > thr
    · rw [if_pos hm]
      obtain ⟨r, hr, hlen, hent, htr⟩ := ih T hl
      refine ⟨r, hr, hlen, ?_, ?_⟩
      · intro k
        rw [hent k]
        cases hk : T[k]? with
        | none => rfl
        | some s' =>
          simp only [Option.map_some', star_after, List.mem_cons]
          by_cases hkc : (k : Int) + 1 = c
          · have : k = (c - 1).toNat := by omega
            subst this
            rw [hget] at hk
            cases hk
            rw [if_neg (fun h => absurd h.1 (not_le.mpr hm)),
              if_neg (fun h => absurd h.1 (not_le.mpr hm))]
          · simp only [hkc, false_or]
      · rw [htr, List.map_cons, List.filter_cons_of_neg]
        simp [drawn_at, hs, not_le.mpr hm]
    · rw [if_neg hm]
      rw [rendered_star_eq_body]
      have hmag : (rendered_star ext win rf s).magnitude = s.magnitude := rfl
      have hl' : catalog_ok (T.set (c - 1).toNat (rendered_star ext win rf s)).length l := by
        rw [List.length_set]; exact hl
      obtain ⟨r, hr, hlen, hent, htr⟩ := ih _ hl'
      rw [hr]
      refine ⟨_, rfl, ?_, ?_, ?_⟩
      · simpa using hlen
      · intro k
        dsimp only
        rw [hent k]
        by_cases hkc : (c - 1).toNat = k
        · subst hkc
          rw [List.getElem?_set_self hlt, hget]
          simp only [Option.map_some', star_after]
          have hmem : (((c - 1).toNat : Nat) : Int) + 1 ∈ c :: l := by
            rw [hcast]; simp
          rw [rendered_star_idem, ite_self, if_pos ⟨not_lt.mp hm, hmem⟩]
        · rw [List.getElem?_set_ne hkc]
          cases hk : T[k]? with
          | none => rfl
          | some s' =>
            simp only [Option.map_some', star_after, List.mem_cons]
            have hne : ¬ ((k : Int) + 1 = c) := by omega
            simp only [hne, false_or]
      · dsimp only
        rw [List.map_cons, htr, drawn_at_set T thr _ s _ hget hmag, List.map_cons,
          List.filter_cons_of_pos]
        simp [drawn_at, hs, not_lt.mp hm]

theorem render_segment_of_stars (ext : astro) (rf : render_flags) (T : List star) (a b : Int)
    (sa sb : star) (ha : star_at T (a - 1) = some sa) (hb : star_at T (b - 1) = some sb) :
    render_segment ext rf T a b =
      .ok (segment_draw ext rf sa.base.y sa.base.x sb.base.y sb.base.x) := by
  simp only [render_segment, ha, hb]

theorem drop_of_getElem? {α : Type} (l : List α) (j : Nat) (a : α) (h : l[j]? = some a) :
    l.drop j = a :: l.drop (j + 1) := by
  obtain ⟨hlt, rfl⟩ := List.getElem?_eq_some_iff.mp h
  exact List.drop_eq_getElem_cons hlt

theorem render_segments_loop_spec (ext : astro) (rf : render_flags) (T : List star)
    (star_numbers : List Int) :
    ∀ (n j : Nat),
      (∀ i, i < 2 * n → ∃ c, star_numbers[j + i]? = some c ∧ 1 ≤ c ∧ c ≤ (T.length : Int)) →
      ∃ segs, render_segments_loop ext rf T star_numbers n j = .ok segs ∧
        segs.map (fun e => (e.1, e.2.1)) = segment_ends (star_numbers.drop j) n ∧
        ∀ e ∈ segs, ∃ sa sb, star_at T (e.1 - 1) = some sa ∧ star_at T (e.2.1 - 1) = some sb ∧
          e.2.2 = segment_draw ext rf sa.base.y sa.base.x sb.base.y sb.base.x := by
  intro n
  induction n with
  | zero =>
    intro j _
    refine ⟨[], rfl, ?_, fun e he => by simp at he⟩
    cases star_numbers.drop j with
    | nil => rfl
    | cons a l => cases l <;> rfl
  | succ n ih =>
    intro j h
    obtain ⟨a, ha, ha1, ha2⟩ := h 0 (by omega)
    obtain ⟨b, hb, hb1, hb2⟩ := h 1 (by omega)
    obtain ⟨sa, hsa, -⟩ := star_at_of_range T a ha1 ha2
    obtain ⟨sb, hsb, -⟩ := star_at_of_range T b hb1 hb2
    obtain ⟨segs, hsegs, hends, hall⟩ := ih (j + 2) (fun i hi => by
      have := h (i + 2) (by omega)
      rwa [show j + (i + 2) = j + 2 + i by omega] at this)
    rw [Nat.add_zero] at ha
    refine ⟨(a, b, segment_draw ext rf sa.base.y sa.base.x sb.base.y sb.base.x) :: segs,
      ?_, ?_, ?_⟩
    · simp only [render_segments_loop, ha, hb, render_segment_of_stars ext rf T a b sa sb hsa hsb,
        hsegs]
    · rw [drop_of_getElem? star_numbers j a ha, drop_of_getElem? star_numbers (j + 1) b hb,
        List.map_cons, hends]
      rfl
    · intro e he
      rcases List.mem_cons.mp he with rfl | he
      · exact ⟨sa, sb, hsa, hsb, rfl⟩
      · exact hall e he

theorem constell_ok_pointwise (n : Nat) (k : constell) (h : constell_ok n k) :
    ∀ i, i < 2 * k.num_segments →
      ∃ c, k.star_numbers[0 + i]? = some c ∧ 1 ≤ c ∧ c ≤ (n : Int) := by
  intro i hi
  have hlt : i < k.star_numbers.length := lt_of_lt_of_le hi h.1
  refine ⟨k.star_numbers[i], by simp [List.getElem?_eq_getElem hlt], ?_⟩
  apply h.2
  rw [List.mem_take_iff_getElem]
  exact ⟨i, by simp [hi, hlt], rfl⟩

theorem render_constells_spec (ext : astro) (rf : render_flags) (T : List star) :
    ∀ (constell_table : List constell), (∀ k ∈ constell_table, constell_ok T.length k) →
      ∃ segs, render_constells ext rf constell_table T = .ok segs ∧
        segs.map (fun e => (e.1, e.2.1)) = all_segment_ends constell_table ∧
        ∀ e ∈ segs, ∃ sa sb, star_at T (e.1 - 1) = some sa ∧ star_at T (e.2.1 - 1) = some sb ∧
          e.2.2 = segment_draw ext rf sa.base.y sa.base.x sb.base.y sb.base.x := by
  intro constell_table
  induction constell_table with
  | nil => intro _; exact ⟨[], rfl, rfl, fun e he => by simp at he⟩
  | cons k rest ih =>
    intro h
    obtain ⟨segs, hsegs, hends, hall⟩ := render_segments_loop_spec ext rf T k.star_numbers
      k.num_segments 0 (constell_ok_pointwise T.length k (h k (List.mem_cons_self k rest)))
    obtain ⟨more, hmore, hends', hall'⟩ := ih (fun k' hk' => h k' (List.mem_cons_of_mem k hk'))
    refine ⟨segs ++ more, ?_, ?_, ?_⟩
    · simp only [render_constells, hsegs, hmore]
    · rw [List.map_append, hends, hends', List.drop_zero]
      rfl
    · intro e he
      rcases List.mem_append.mp he with he | he
      · exact hall e he
      · exact hall' e he

/-! ### Catalog numbers and table indices -/

theorem star_at_some_range (T : List star) (k : Int) (s : star) (h : star_at T k = some s) :
    0 ≤ k ∧ k < (T.length : Int) := by
  unfold star_at at h
  by_cases hk : 0 ≤ k
  · rw [if_pos hk] at h
    have := (List.getElem?_eq_some_iff.mp h).1
    omega
  · rw [if_neg hk] at h
    cases h

theorem render_stars_list_ok_in_range (ext : astro) (win : window) (rf : render_flags)
    (thr : ℚ) :
    ∀ (l : List Int) (T : List star) (r : List star × List (Int × List draw_call)),
      render_stars_list ext win rf thr l T = .ok r → catalog_ok T.length l := by
  intro l
  induction l with
  | nil => intro T r _ c hc; simp at hc
  | cons c l ih =>
    intro T r h
    simp only [render_stars_list] at h
    cases hs : star_at T (c - 1) with
    | none => rw [hs] at h; cases h
    | some s =>
      rw [hs] at h
      dsimp only at h
      have hr := star_at_some_range T (c - 1) s hs
      have hrest : catalog_ok T.length l := by
        by_cases hm : s.magnitude > thr
        · rw [if_pos hm] at h
          exact ih T r h
        · rw [if_neg hm] at h
          generalize hT : T.set (c - 1).toNat _ = T1 at h
          cases hrec : render_stars_list ext win rf thr l T1 with
          | error f => rw [hrec] at h; cases h
          | ok rest =>
            have := ih T1 rest hrec
            rw [← hT, List.length_set] at this
            exact this
      intro d hd
      rcases List.mem_cons.mp hd with rfl | hd
      · omega
      · exact hrest d hd

/-- C3, as the code has it: `render_stars_stereo` and `render_constells` index
`star_table` at `c - 1` for every catalog number `c` they read, without a range
check. For a table of `n` entries `render_stars_stereo` completes without a read
outside the table exactly when each of the `n` catalog numbers it reads from
`num_by_mag` lies in `[1, n]`, every index it hands on then lies in `[0, n)`, and
`render_constells` completes when every constellation holds two catalog numbers in
`[1, n]` per segment, both stars of every segment then being entries of the table. -/
theorem C3_index_in_bounds_for_catalog_numbers_in_range (ext : astro) (win : window)
    (rf : render_flags) (star_table : List star) (num_by_mag : List Int) (threshold : ℚ)
    (constell_table : List constell)
    (hlen : star_table.length ≤ num_by_mag.length) :
    ((∃ r, render_stars_stereo ext win rf star_table num_by_mag threshold = .ok r) ↔
      catalog_ok star_table.length (num_by_mag.take star_table.length)) ∧
    (∀ r, render_stars_stereo ext win rf star_table num_by_mag threshold = .ok r →
      ∀ e ∈ r.2, 0 ≤ e.1 ∧ e.1 < (star_table.length : Int) ∧
        e.1 + 1 ∈ num_by_mag.take star_table.length) ∧
    ((∀ k ∈ constell_table, constell_ok star_table.length k) →
      ∃ segs, render_constells ext rf constell_table star_table = .ok segs ∧
        ∀ e ∈ segs, (∃ sa, star_at star_table (e.1 - 1) = some sa) ∧
          (∃ sb, star_at star_table (e.2.1 - 1) = some sb)) := by
  rw [render_stars_stereo_eq_list ext win rf star_table num_by_mag threshold hlen]
  refine ⟨⟨?_, ?_⟩, ?_, ?_⟩
  · rintro ⟨r, hr⟩
    exact render_stars_list_ok_in_range ext win rf threshold _ _ r hr
  · intro hok
    obtain ⟨r, hr, -⟩ := render_stars_list_spec ext win rf threshold _ star_table hok
    exact ⟨r, hr⟩
  · intro r hr e he
    have hok := render_stars_list_ok_in_range ext win rf threshold _ _ r hr
    obtain ⟨r', hr', -, -, htr⟩ := render_stars_list_spec ext win rf threshold _ star_table hok
    rw [hr] at hr'
    cases hr'
    have hmem : e.1 ∈ r.2.map (fun c => c.1) := List.mem_map_of_mem _ he
    rw [htr, List.mem_filter, List.mem_map] at hmem
    obtain ⟨⟨c, hc, hce⟩, -⟩ := hmem
    have := hok c hc
    refine ⟨by omega, by omega, ?_⟩
    rw [← hce]
    simpa using hc
  · intro hcon
    obtain ⟨segs, hsegs, -, hall⟩ := render_constells_spec ext rf star_table constell_table hcon
    refine ⟨segs, hsegs, fun e he => ?_⟩
    obtain ⟨sa, sb, ha, hb, -⟩ := hall e he
    exact ⟨⟨sa, ha⟩, ⟨sb, hb⟩⟩

/-- Witness of C3: one star with catalog number 1, read once, and one constellation
with the single segment from star 1 to star 1. -/
theorem C3_index_in_bounds_for_catalog_numbers_in_range_witness :
    [demo_star 1 1 none].length ≤ [(1 : Int)].length ∧
    (((∃ r, render_stars_stereo demo_astro demo_win demo_rf [demo_star 1 1 none] [1] 3 = .ok r) ↔
      catalog_ok [demo_star 1 1 none].length
        (([1] : List Int).take [demo_star 1 1 none].length)) ∧
    (∀ r, render_stars_stereo demo_astro demo_win demo_rf [demo_star 1 1 none] [1] 3 = .ok r →
      ∀ e ∈ r.2, 0 ≤ e.1 ∧ e.1 < ([demo_star 1 1 none].length : Int) ∧
        e.1 + 1 ∈ ([1] : List Int).take [demo_star 1 1 none].length) ∧
    ((∀ k ∈ [({ num_segments := 1, star_numbers := [1, 1] } : constell)],
        constell_ok [demo_star 1 1 none].length k) →
      ∃ segs, render_constells demo_astro demo_rf
          [{ num_segments := 1, star_numbers := [1, 1] }] [demo_star 1 1 none] = .ok segs ∧
        ∀ e ∈ segs, (∃ sa, star_at [demo_star 1 1 none] (e.1 - 1) = some sa) ∧
          (∃ sb, star_at [demo_star 1 1 none] (e.2.1 - 1) = some sb))) :=
  ⟨by decide, C3_index_in_bounds_for_catalog_numbers_in_range demo_astro demo_win demo_rf
    [demo_star 1 1 none] [1] 3 [{ num_segments := 1, star_numbers := [1, 1] }] (by decide)⟩

/-- C3 as stated fails: with a table of one star, `render_stars_stereo` given the
catalog number 2 reads `star_table[1]`, and `render_constells` given a segment from
star 1 to catalog number 0 reads `star_table[-1]`; neither number is skipped. -/
theorem C3_out_of_range_catalog_number_is_indexed :
    render_stars_stereo demo_astro demo_win demo_rf [demo_star 1 1 none] [2] 3 =
      .error (fault.star_table_index 1) ∧
    render_constells demo_astro demo_rf [{ num_segments := 1, star_numbers := [1, 0] }]
      [demo_star 1 1 none] = .error (fault.star_table_index (-1)) := by
  constructor <;> rfl

/-! ### Frames of the star passes -/

theorem star_frame_spec (ext : astro) (rf : render_flags) (num_by_mag : List Int) (thr : ℚ)
    (lat lon : ℚ) (win : window) (jd : ℚ) (T : List star)
    (hlen : T.length ≤ num_by_mag.length)
    (hnum : catalog_ok T.length (num_by_mag.take T.length)) :
    ∃ r, star_frame ext rf num_by_mag thr lat lon win jd T = .ok r ∧ r.1.length = T.length ∧
      ∀ k : Nat, r.1[k]? = (T[k]?).map (fun s =>
        star_after ext win rf thr (num_by_mag.take T.length) k
          (update_star ext (ext.greenwich_mean_sidereal_time_rad jd) jd lat lon s)) := by
  unfold star_frame update_star_positions
  dsimp only
  generalize hT1 : T.map (update_star ext (ext.greenwich_mean_sidereal_time_rad jd) jd lat lon)
    = T1
  have hl1 : T1.length = T.length := by rw [← hT1, List.length_map]
  rw [render_stars_stereo_eq_list ext win rf T1 num_by_mag thr (by rw [hl1]; exact hlen), hl1]
  obtain ⟨r, hr, hrl, hent, -⟩ := render_stars_list_spec ext win rf thr
    (num_by_mag.take T.length) T1 (by rw [hl1]; exact hnum)
  refine ⟨r, hr, by rw [hrl, hl1], fun k => ?_⟩
  rw [hent k, ← hT1, List.getElem?_map, Option.map_map]
  rfl

theorem star_after_update_catalog (ext : astro) (win : window) (rf : render_flags) (thr : ℚ)
    (cs : List Int) (k : Nat) (gmst jd lat lon : ℚ) (s : star) :
    catalog_fixed s (star_after ext win rf thr cs k (update_star ext gmst jd lat lon s)) := by
  unfold star_after
  split_ifs <;> exact ⟨rfl, rfl, rfl, rfl, rfl⟩

theorem star_after_update_dim (ext : astro) (win : window) (rf : render_flags) (thr : ℚ)
    (cs : List Int) (k : Nat) (gmst jd lat lon : ℚ) (s : star) (h : s.magnitude > thr) :
    (star_after ext win rf thr cs k (update_star ext gmst jd lat lon s)).base.y = s.base.y ∧
    (star_after ext win rf thr cs k (update_star ext gmst jd lat lon s)).base.x = s.base.x := by
  unfold star_after
  rw [if_neg (fun hh => absurd hh.1 (not_le.mpr h))]
  exact ⟨rfl, rfl⟩

theorem star_frames_spec (ext : astro) (rf : render_flags) (num_by_mag : List Int) (thr : ℚ)
    (lat lon : ℚ) :
    ∀ (frames : List (window × ℚ)) (T : List star), T.length ≤ num_by_mag.length →
      catalog_ok T.length (num_by_mag.take T.length) →
      ∃ T', star_frames ext rf num_by_mag thr lat lon frames T = .ok T' ∧
        T'.length = T.length ∧
        ∀ (k : Nat) (s : star), T[k]? = some s →
          ∃ t, T'[k]? = some t ∧ t.magnitude = s.magnitude ∧
            (s.magnitude > thr → t.base.y = s.base.y ∧ t.base.x = s.base.x) := by
  intro frames
  induction frames with
  | nil =>
    intro T _ _
    exact ⟨T, rfl, rfl, fun k s hk => ⟨s, hk, rfl, fun _ => ⟨rfl, rfl⟩⟩⟩
  | cons frame later ih =>
    intro T hlen hnum
    obtain ⟨r, hr, hrl, hent⟩ := star_frame_spec ext rf num_by_mag thr lat lon frame.1 frame.2 T
      hlen hnum
    obtain ⟨T', hT', hl', hall⟩ := ih r.1 (by rw [hrl]; exact hlen) (by rw [hrl]; exact hnum)
    refine ⟨T', ?_, by rw [hl', hrl], fun k s hk => ?_⟩
    · simp only [star_frames, hr, hT']
    · have h1 : r.1[k]? = some (star_after ext frame.1 rf thr (num_by_mag.take T.length) k
          (update_star ext (ext.greenwich_mean_sidereal_time_rad frame.2) frame.2 lat lon s)) := by
        rw [hent k, hk]; rfl
      obtain ⟨t, ht, hmag, hdim⟩ := hall k _ h1
      have hcat := star_after_update_catalog ext frame.1 rf thr (num_by_mag.take T.length) k
        (ext.greenwich_mean_sidereal_time_rad frame.2) frame.2 lat lon s
      refine ⟨t, ht, hmag.trans hcat.1, fun hs => ?_⟩
      have hyx := star_after_update_dim ext frame.1 rf thr (num_by_mag.take T.length) k
        (ext.greenwich_mean_sidereal_time_rad frame.2) frame.2 lat lon s hs
      have := hdim (by rw [hcat.1]; exact hs)
      exact ⟨this.1.trans hyx.1, this.2.trans hyx.2⟩

theorem segment_draw_of_origin (ext : astro) (rf : render_flags) (ya xa yb xb : Int)
    (h : (ya = 0 ∧ xa = 0) ∨ (yb = 0 ∧ xb = 0)) : segment_draw ext rf ya xa yb xb = [] := by
  unfold segment_draw
  rw [if_pos h]

theorem getElem?_of_star_at (T : List star) (k : Int) (s : star) (h : star_at T k = some s) :
    T[k.toNat]? = some s := by
  unfold star_at at h
  by_cases hk : 0 ≤ k
  · rwa [if_pos hk] at h
  · rw [if_neg hk] at h
    cases h

theorem origin_of_dimmer (T T' : List star) (thr : ℚ)
    (h0 : ∀ s ∈ T, s.base.y = 0 ∧ s.base.x = 0)
    (hall : ∀ (k : Nat) (s : star), T[k]? = some s →
      ∃ t, T'[k]? = some t ∧ t.magnitude = s.magnitude ∧
        (s.magnitude > thr → t.base.y = s.base.y ∧ t.base.x = s.base.x))
    (c : Int) (hd : dimmer_at T thr c) (sa : star) (hsa : star_at T' (c - 1) = some sa) :
    sa.base.y = 0 ∧ sa.base.x = 0 := by
  unfold dimmer_at at hd
  cases hs : star_at T (c - 1) with
  | none => rw [hs] at hd; exact hd.elim
  | some s =>
    rw [hs] at hd
    have hget := getElem?_of_star_at T (c - 1) s hs
    obtain ⟨t, ht, -, hdim⟩ := hall _ s hget
    have hget' := getElem?_of_star_at T' (c - 1) sa hsa
    rw [ht] at hget'
    cases hget'
    have hz := h0 s (List.getElem?_mem hget)
    have := hdim hd
    exact ⟨this.1.trans hz.1, this.2.trans hz.2⟩

/-- C8: sentinel invariant. If every star's cached `(y, x)` is `(0, 0)` before the
first frame and the threshold is fixed, then any number of frames of
`update_star_positions` and `render_stars_stereo` return, and afterwards every star
with a magnitude above the threshold still has its magnitude and the cached cell
`(0, 0)`; `render_constells` on the resulting table returns, processes every
segment of the constellation table, issues no drawing call for a segment that has
such a star as an endpoint, and skips every segment one of whose endpoints has the
cached cell `(0, 0)`. -/
theorem C8_sentinel_invariant (ext : astro) (rf : render_flags) (num_by_mag : List Int)
    (threshold latitude longitude : ℚ) (frames : List (window × ℚ)) (star_table : List star)
    (constell_table : List constell)
    (h0 : ∀ s ∈ star_table, s.base.y = 0 ∧ s.base.x = 0)
    (hlen : star_table.length ≤ num_by_mag.length)
    (hnum : catalog_ok star_table.length (num_by_mag.take star_table.length))
    (hcon : ∀ k ∈ constell_table, constell_ok star_table.length k) :
    ∃ T', star_frames ext rf num_by_mag threshold latitude longitude frames star_table = .ok T' ∧
      T'.length = star_table.length ∧
      (∀ (k : Nat) (s : star), star_table[k]? = some s → s.magnitude > threshold →
        ∃ t, T'[k]? = some t ∧ t.magnitude > threshold ∧ t.base.y = 0 ∧ t.base.x = 0) ∧
      ∃ segs, render_constells ext rf constell_table T' = .ok segs ∧
        segs.map (fun e => (e.1, e.2.1)) = all_segment_ends constell_table ∧
        (∀ e ∈ segs, (dimmer_at star_table threshold e.1 ∨
            dimmer_at star_table threshold e.2.1) → e.2.2 = []) ∧
        (∀ e ∈ segs, ∀ sa sb, star_at T' (e.1 - 1) = some sa →
          star_at T' (e.2.1 - 1) = some sb →
          ((sa.base.y = 0 ∧ sa.base.x = 0) ∨ (sb.base.y = 0 ∧ sb.base.x = 0)) →
          e.2.2 = []) := by
  obtain ⟨T', hT', hl', hall⟩ := star_frames_spec ext rf num_by_mag threshold latitude
    longitude frames star_table hlen hnum
  obtain ⟨segs, hsegs, hends, hseg⟩ := render_constells_spec ext rf T' constell_table
    (by rw [hl']; exact hcon)
  refine ⟨T', hT', hl', ?_, segs, hsegs, hends, ?_, ?_⟩
  · intro k s hk hs
    obtain ⟨t, ht, hmag, hdim⟩ := hall k s hk
    have hz := h0 s (List.getElem?_mem hk)
    have := hdim hs
    exact ⟨t, ht, by rw [hmag]; exact hs, this.1.trans hz.1, this.2.trans hz.2⟩
  · intro e he hd
    obtain ⟨sa, sb, hsa, hsb, hcalls⟩ := hseg e he
    rw [hcalls]
    apply segment_draw_of_origin
    rcases hd with hd | hd
    · exact Or.inl (origin_of_dimmer star_table T' threshold h0 hall e.1 hd sa hsa)
    · exact Or.inr (origin_of_dimmer star_table T' threshold h0 hall e.2.1 hd sb hsb)
  · intro e he sa sb hsa hsb hz
    obtain ⟨sa', sb', hsa', hsb', hcalls⟩ := hseg e he
    rw [hsa] at hsa'
    rw [hsb] at hsb'
    cases hsa'
    cases hsb'
    rw [hcalls]
    exact segment_draw_of_origin ext rf _ _ _ _ hz

/-- Witness of C8: two frames over a star of magnitude 1 and a star of magnitude 5
with threshold 3, and one constellation with the segment between the two. -/
theorem C8_sentinel_invariant_witness :
    (∀ s ∈ [demo_star 1 1 none, demo_star 5 1 none], s.base.y = 0 ∧ s.base.x = 0) ∧
    [demo_star 1 1 none, demo_star 5 1 none].length ≤ [(1 : Int), 2].length ∧
    catalog_ok [demo_star 1 1 none, demo_star 5 1 none].length
      (([1, 2] : List Int).take [demo_star 1 1 none, demo_star 5 1 none].length) ∧
    (∀ k ∈ [({ num_segments := 1, star_numbers := [1, 2] } : constell)],
      constell_ok [demo_star 1 1 none, demo_star 5 1 none].length k) ∧
    ∃ T', star_frames demo_astro demo_rf [1, 2] 3 0 0 [(demo_win, 0), (demo_win, 1)]
        [demo_star 1 1 none, demo_star 5 1 none] = .ok T' ∧
      T'.length = [demo_star 1 1 none, demo_star 5 1 none].length ∧
      (∀ (k : Nat) (s : star), [demo_star 1 1 none, demo_star 5 1 none][k]? = some s →
        s.magnitude > 3 →
        ∃ t, T'[k]? = some t ∧ t.magnitude > 3 ∧ t.base.y = 0 ∧ t.base.x = 0) ∧
      ∃ segs, render_constells demo_astro demo_rf
          [{ num_segments := 1, star_numbers := [1, 2] }] T' = .ok segs ∧
        segs.map (fun e => (e.1, e.2.1)) =
          all_segment_ends [{ num_segments := 1, star_numbers := [1, 2] }] ∧
        (∀ e ∈ segs, (dimmer_at [demo_star 1 1 none, demo_star 5 1 none] 3 e.1 ∨
            dimmer_at [demo_star 1 1 none, demo_star 5 1 none] 3 e.2.1) → e.2.2 = []) ∧
        (∀ e ∈ segs, ∀ sa sb, star_at T' (e.1 - 1) = some sa →
          star_at T' (e.2.1 - 1) = some sb →
          ((sa.base.y = 0 ∧ sa.base.x = 0) ∨ (sb.base.y = 0 ∧ sb.base.x = 0)) →
          e.2.2 = []) :=
  ⟨by decide, by decide, by decide, by decide,
    C8_sentinel_invariant demo_astro demo_rf [1, 2] 3 0 0 [(demo_win, 0), (demo_win, 1)]
      [demo_star 1 1 none, demo_star 5 1 none] [{ num_segments := 1, star_numbers := [1, 2] }]
      (by decide) (by decide) (by decide) (by decide)⟩

/-! ### Constellation segments after the star pass -/

theorem segment_draw_ne_nil_iff (ext : astro) (rf : render_flags) (ya xa yb xb : Int) :
    segment_draw ext rf ya xa yb xb ≠ [] ↔
      ¬ (ya = 0 ∧ xa = 0) ∧ ¬ (yb = 0 ∧ xb = 0) ∧
        ext.sqrt (
            ((wrap_int32 (ya - yb) : Int) : ℚ) ^ 2 +
              ((wrap_int32 (xa - xb) : Int) : ℚ) ^ 2) < 10000 := by
  unfold segment_draw
  by_cases h : (ya = 0 ∧ xa = 0) ∨ (yb = 0 ∧ xb = 0)
  · rw [if_pos h]
    simp only [ne_eq, not_true_eq_false, false_iff]
    rintro ⟨h1, h2, -⟩
    exact h.elim h1 h2
  · rw [if_neg h]
    dsimp only
    have h' := not_or.mp h
    by_cases hl : ext.sqrt (
        ((wrap_int32 (ya - yb) : Int) : ℚ) ^ 2 +
          ((wrap_int32 (xa - xb) : Int) : ℚ) ^ 2) < 10000
    · rw [if_pos hl]
      constructor
      · intro _; exact ⟨h'.1, h'.2, hl⟩
      · intro _; split_ifs <;> simp
    · rw [if_neg hl]
      simp only [ne_eq, not_true_eq_false, false_iff]
      rintro ⟨-, -, h3⟩
      exact hl h3

theorem segment_draw_wraps_difference (ext : astro) (rf : render_flags)
    (h : ext.sqrt 1 < 10000) :
    segment_draw ext rf 2147483647 1 (-2147483648) 1 ≠ [] := by
  rw [segment_draw_ne_nil_iff]
  have w1 : wrap_int32 (2147483647 - -2147483648) = -1 := by decide
  have w0 : wrap_int32 (1 - 1) = 0 := by decide
  rw [w1, w0]
  refine ⟨by decide, by decide, ?_⟩
  norm_num
  exact h

/-- C5 as stated fails on the code: a planet at the zenith projects to the cell
`(2, 3)` and a moon likewise, but after `render_planets_stereo` the entry of the
planet in the caller's table, and after `render_moon_stereo` the caller's moon
object, still hold the cell `(0, 0)` they had before; the cell was stored to the
callee's copy only. -/
theorem C5_planet_and_moon_cells_not_stored :
    win_yx demo_astro demo_win (demo_planets 1).base = (2, 3) ∧
    (((render_planets_stereo demo_astro demo_win demo_rf demo_ids demo_planets).1 1).base.y,
      ((render_planets_stereo demo_astro demo_win demo_rf demo_ids demo_planets).1 1).base.x)
        = (0, 0) ∧
    win_yx demo_astro demo_win demo_moon.base = (2, 3) ∧
    ((render_moon_stereo demo_astro demo_win demo_rf demo_moon).1.base.y,
      (render_moon_stereo demo_astro demo_win demo_rf demo_moon).1.base.x) = (0, 0) ∧
    ((render_moon_stereo demo_astro demo_win demo_rf demo_moon).2.1.y,
      (render_moon_stereo demo_astro demo_win demo_rf demo_moon).2.1.x) = (2, 3) := by
  refine ⟨?_, rfl, ?_, rfl, ?_⟩
  · norm_num [win_yx, demo_astro, demo_planets, demo_base]
  · norm_num [win_yx, demo_astro, demo_moon, demo_base]
  · norm_num [render_moon_stereo, render_object_stereo, fabs, demo_astro, demo_moon, demo_base]

/-! ### Options -/

theorem M_PI_pos : 0 < M_PI := by
  norm_num [M_PI]

theorem c_double_lt_finite (a b : ℚ) : (c_double.finite a < c_double.finite b) ↔ a < b :=
  Iff.rfl

theorem range_tests_pass_iff (a : c_double) (lo hi : ℚ) :
    ¬ (a < c_double.finite lo ∨ a > c_double.finite hi) ↔ (a = .nan ∨ a.within lo hi) := by
  cases a with
  | finite v =>
    show ¬ (v < lo ∨ hi < v) ↔ (c_double.finite v = .nan ∨ (lo ≤ v ∧ v ≤ hi))
    simp only [not_or, not_lt, reduceCtorEq, false_or]
  | pos_inf =>
    show ¬ (False ∨ True) ↔ (c_double.pos_inf = .nan ∨ False)
    simp
  | neg_inf =>
    show ¬ (True ∨ False) ↔ (c_double.neg_inf = .nan ∨ False)
    simp
  | nan =>
    show ¬ (False ∨ False) ↔ (c_double.nan = .nan ∨ False)
    simp

theorem parse_option_a (sys : libc) (st : options) (optarg : String) :
    (parse_option sys st (.a optarg) = .error .EXIT_FAILURE ↔
      (sys.atof optarg < c_double.finite (-90) ∨ sys.atof optarg > c_double.finite 90)) ∧
    (¬ (sys.atof optarg < c_double.finite (-90) ∨ sys.atof optarg > c_double.finite 90) →
      parse_option sys st (.a optarg) = .ok { st with latitude := sys.atof optarg }) := by
  unfold parse_option
  dsimp only
  by_cases h : sys.atof optarg < c_double.finite (-90) ∨ sys.atof optarg > c_double.finite 90
  · rw [if_pos h]
    exact ⟨⟨fun _ => h, fun _ => rfl⟩, fun hn => absurd h hn⟩
  · rw [if_neg h]
    exact ⟨⟨fun hh => (by cases hh), fun hh => absurd hh h⟩, fun _ => rfl⟩

theorem parse_option_o (sys : libc) (st : options) (optarg : String) :
    (parse_option sys st (.o optarg) = .error .EXIT_FAILURE ↔
      (sys.atof optarg < c_double.finite (-180) ∨ sys.atof optarg > c_double.finite 180)) ∧
    (¬ (sys.atof optarg < c_double.finite (-180) ∨ sys.atof optarg > c_double.finite 180) →
      parse_option sys st (.o optarg) = .ok { st with longitude := sys.atof optarg }) := by
  unfold parse_option
  dsimp only
  by_cases h : sys.atof optarg < c_double.finite (-180) ∨ sys.atof optarg > c_double.finite 180
  · rw [if_pos h]
    exact ⟨⟨fun _ => h, fun _ => rfl⟩, fun hn => absurd h hn⟩
  · rw [if_neg h]
    exact ⟨⟨fun hh => (by cases hh), fun hh => absurd hh h⟩, fun _ => rfl⟩

theorem parse_option_step (sys : libc) (st st' : options) (r : getopt_return)
    (more : List getopt_return) (h : parse_option sys st r = .ok st') (hst : degrees_ok st) :
    degrees_ok st' ∧
      given_latitude sys (r :: more) st.latitude = given_latitude sys more st'.latitude ∧
      given_longitude sys (r :: more) st.longitude = given_longitude sys more st'.longitude := by
  unfold degrees_ok at hst ⊢
  cases r with
  | flag_stored f =>
    cases f <;> (cases h; exact ⟨hst, rfl, rfl⟩)
  | regular_argument optarg => cases h
  | a optarg =>
    by_cases hr : sys.atof optarg < c_double.finite (-90) ∨ sys.atof optarg > c_double.finite 90
    · rw [(parse_option_a sys st optarg).1.mpr hr] at h
      cases h
    · rw [(parse_option_a sys st optarg).2 hr] at h
      cases h
      exact ⟨⟨(range_tests_pass_iff _ _ _).mp hr, hst.2⟩, rfl, rfl⟩
  | d optarg => cases h; exact ⟨hst, rfl, rfl⟩
  | f optarg =>
    unfold parse_option at h
    dsimp only at h
    split_ifs at h
    cases h
    exact ⟨hst, rfl, rfl⟩
  | h => cases h
  | l optarg => cases h; exact ⟨hst, rfl, rfl⟩
  | m optarg => cases h; exact ⟨hst, rfl, rfl⟩
  | o optarg =>
    by_cases hr : sys.atof optarg < c_double.finite (-180) ∨
        sys.atof optarg > c_double.finite 180
    · rw [(parse_option_o sys st optarg).1.mpr hr] at h
      cases h
    · rw [(parse_option_o sys st optarg).2 hr] at h
      cases h
      exact ⟨⟨hst.1, (range_tests_pass_iff _ _ _).mp hr⟩, rfl, rfl⟩
  | t optarg => cases h; exact ⟨hst, rfl, rfl⟩
  | unrecognized optopt => cases h
  | missing optopt => cases h
  | other c => cases h

theorem parse_options_degrees (sys : libc) :
    ∀ (returns : List getopt_return) (st0 st : options), degrees_ok st0 →
      parse_options sys returns st0 = .ok st →
      degrees_ok st ∧ st.latitude = given_latitude sys returns st0.latitude ∧
        st.longitude = given_longitude sys returns st0.longitude := by
  intro returns
  induction returns with
  | nil =>
    intro st0 st h0 h
    cases h
    exact ⟨h0, rfl, rfl⟩
  | cons r more ih =>
    intro st0 st h0 h
    unfold parse_options at h
    cases hr : parse_option sys st0 r with
    | error status => rw [hr] at h; cases h
    | ok st1 =>
      rw [hr] at h
      obtain ⟨h1, hlat, hlon⟩ := parse_option_step sys st0 st1 r more hr h0
      obtain ⟨h2, hlat2, hlon2⟩ := ih st1 st h1 h
      exact ⟨h2, hlat2.trans hlat.symm, hlon2.trans hlon.symm⟩

theorem convert_options_radians (sys : libc) (st st' : options)
    (h : convert_options sys st = .ok st') :
    st'.latitude = st.latitude * (M_PI / 180) ∧ st'.longitude = st.longitude * (M_PI / 180) := by
  unfold convert_options at h
  dsimp only at h
  cases hd : st.dt_string_utc with
  | none =>
    rw [hd] at h
    cases h
    exact ⟨rfl, rfl⟩
  | some dt =>
    rw [hd] at h
    dsimp only at h
    cases hp : sys.string_to_time dt with
    | none => rw [hp] at h; cases h
    | some datetime =>
      rw [hp] at h
      cases h
      exact ⟨rfl, rfl⟩

theorem default_options_degrees : degrees_ok default_options := by
  unfold degrees_ok default_options c_double.within
  norm_num

theorem radians_of_degrees (a : c_double) (b : ℚ) (h : a = .nan ∨ a.within (-b) b) :
    a * (M_PI / 180) = .nan ∨
      (a * (M_PI / 180)).within (-(b * (M_PI / 180))) (b * (M_PI / 180)) := by
  have hp : 0 ≤ M_PI / 180 := by
    have := M_PI_pos
    positivity
  rcases h with rfl | h
  · exact Or.inl rfl
  · cases a with
    | finite v =>
      right
      show -(b * (M_PI / 180)) ≤ v * (M_PI / 180) ∧ v * (M_PI / 180) ≤ b * (M_PI / 180)
      have h1 : -b ≤ v := h.1
      have h2 : v ≤ b := h.2
      constructor
      · have := mul_le_mul_of_nonneg_right h1 hp
        linarith
      · exact mul_le_mul_of_nonneg_right h2 hp
    | pos_inf => exact h.elim
    | neg_inf => exact h.elim
    | nan => exact h.elim

/-- C10 fails on the code: `atof` returns NaN for the option argument "nan", both
comparisons of the range test are false for NaN, so `parse_options` accepts `-a nan`
(and `-o nan`) and `convert_options` hands on a NaN latitude (longitude), which does
not lie in `[-M_PI/2, M_PI/2]` (`[-M_PI, M_PI]`). For every other value the claim
holds: the option is rejected with a failure exit exactly when the C comparison
`v < -90` or `v > 90` (resp. `w < -180` or `w > 180`) is true, and whenever
`parse_options` returns, `convert_options` leaves in `latitude` the product of the
last value given (the default without one) and `M_PI / 180`, which is NaN or lies
in `[-M_PI/2, M_PI/2]`, and likewise in `longitude` within `[-M_PI, M_PI]`; the
defaults lie in these ranges. -/
theorem C10_nan_passes_the_range_tests :
    demo_libc.atof "nan" = c_double.nan ∧
    parse_options demo_libc [.a "nan"] default_options =
      .ok { default_options with latitude := .nan } ∧
    parse_options demo_libc [.o "nan"] default_options =
      .ok { default_options with longitude := .nan } ∧
    (∃ st', convert_options demo_libc { default_options with latitude := .nan } = .ok st' ∧
      st'.latitude = .nan ∧ ¬ st'.latitude.within (-(M_PI / 2)) (M_PI / 2)) ∧
    (∃ st', convert_options demo_libc { default_options with longitude := .nan } = .ok st' ∧
      st'.longitude = .nan ∧ ¬ st'.longitude.within (-M_PI) M_PI) ∧
    (∀ (sys : libc) (st : options) (optarg : String),
      (parse_option sys st (.a optarg) = .error .EXIT_FAILURE ↔
        (sys.atof optarg < c_double.finite (-90) ∨ sys.atof optarg > c_double.finite 90)) ∧
      (parse_option sys st (.o optarg) = .error .EXIT_FAILURE ↔
        (sys.atof optarg < c_double.finite (-180) ∨
          sys.atof optarg > c_double.finite 180))) ∧
    (∀ (sys : libc) (returns : List getopt_return) (st : options),
      parse_options sys returns default_options = .ok st →
        (st.dt_string_utc = none → ∃ st', convert_options sys st = .ok st') ∧
        ∀ st', convert_options sys st = .ok st' →
          st'.latitude =
            given_latitude sys returns default_options.latitude * (M_PI / 180) ∧
          (st'.latitude = .nan ∨ st'.latitude.within (-(M_PI / 2)) (M_PI / 2)) ∧
          st'.longitude =
            given_longitude sys returns default_options.longitude * (M_PI / 180) ∧
          (st'.longitude = .nan ∨ st'.longitude.within (-M_PI) M_PI)) ∧
    ((default_options.latitude * (M_PI / 180)).within (-(M_PI / 2)) (M_PI / 2) ∧
      (default_options.longitude * (M_PI / 180)).within (-M_PI) M_PI) := by
  have e90 : (90 : ℚ) * (M_PI / 180) = M_PI / 2 := by ring
  have e180 : (180 : ℚ) * (M_PI / 180) = M_PI := by ring
  refine ⟨rfl, ?_, ?_, ⟨_, rfl, rfl, fun h => h⟩, ⟨_, rfl, rfl, fun h => h⟩, ?_, ?_, ?_⟩
  · unfold parse_options
    rw [(parse_option_a demo_libc default_options "nan").2 (by decide)]
    rfl
  · unfold parse_options
    rw [(parse_option_o demo_libc default_options "nan").2 (by decide)]
    rfl
  · intro sys st optarg
    exact ⟨(parse_option_a sys st optarg).1, (parse_option_o sys st optarg).1⟩
  · intro sys returns st h
    obtain ⟨hdeg, hlat, hlon⟩ :=
      parse_options_degrees sys returns default_options st default_options_degrees h
    constructor
    · intro hd
      unfold convert_options
      dsimp only
      rw [hd]
      exact ⟨_, rfl⟩
    · intro st' hc
      obtain ⟨h1, h2⟩ := convert_options_radians sys st st' hc
      have r1 := radians_of_degrees st.latitude 90 hdeg.1
      have r2 := radians_of_degrees st.longitude 180 hdeg.2
      rw [e90] at r1
      rw [e180] at r2
      rw [h1, h2, ← hlat, ← hlon]
      exact ⟨rfl, r1, rfl, r2⟩
  · have hdeg := default_options_degrees
    have r1 := radians_of_degrees default_options.latitude 90 hdeg.1
    have r2 := radians_of_degrees default_options.longitude 180 hdeg.2
    rw [e90] at r1
    rw [e180] at r2
    constructor
    · rcases r1 with r1 | r1
      · cases r1
      · exact r1
    · rcases r2 with r2 | r2
      · cases r2
      · exact r2




/-! ### The date-time option -/

theorem convert_options_eq_run (sys : libc) (st : options) :
    convert_options sys st =
      match (convert_options_run sys st).2.1 with
      | none => .ok (convert_options_run sys st).1
      | some status => .error status := by
  unfold convert_options convert_options_run
  dsimp only
  cases st.dt_string_utc with
  | none => rfl
  | some dt_string =>
    dsimp only
    cases sys.string_to_time dt_string <;> rfl

/-- C11: in `convert_options`, whenever a date-time string is supplied and
`string_to_time` reports a parse failure, the run is aborted with a failure exit
and `julian_date` is not assigned: neither `datetime_to_julian_date` nor
`current_julian_date` is called and the variable keeps its value. The current time
is used exactly when no date-time string was supplied, and
`datetime_to_julian_date` exactly after a successful parse, on the parsed value. -/
theorem C11_parse_failure_aborts (sys : libc) (st : options) :
    (∀ dt_string, st.dt_string_utc = some dt_string → sys.string_to_time dt_string = none →
      convert_options sys st = .error .EXIT_FAILURE ∧
      (convert_options_run sys st).2.1 = some .EXIT_FAILURE ∧
      (convert_options_run sys st).1.julian_date = st.julian_date ∧
      (convert_options_run sys st).2.2 = [time_call.string_to_time dt_string]) ∧
    (time_call.current_julian_date ∈ (convert_options_run sys st).2.2 ↔
      st.dt_string_utc = none) ∧
    (st.dt_string_utc = none →
      convert_options sys st =
        .ok { st with
          longitude := st.longitude * (M_PI / 180)
          latitude := st.latitude * (M_PI / 180)
          julian_date := sys.current_julian_date }) ∧
    (∀ datetime, time_call.datetime_to_julian_date datetime ∈ (convert_options_run sys st).2.2 ↔
      ∃ dt_string, st.dt_string_utc = some dt_string ∧
        sys.string_to_time dt_string = some datetime) ∧
    (∀ dt_string datetime, st.dt_string_utc = some dt_string →
      sys.string_to_time dt_string = some datetime →
      convert_options sys st =
        .ok { st with
          longitude := st.longitude * (M_PI / 180)
          latitude := st.latitude * (M_PI / 180)
          julian_date := sys.datetime_to_julian_date datetime }) := by
  refine ⟨?_, ?_, ?_, ?_, ?_⟩
  · intro dt_string hd hp
    rw [convert_options_eq_run]
    unfold convert_options_run
    simp [hd, hp]
  · unfold convert_options_run
    dsimp only
    cases hd : st.dt_string_utc with
    | none => simp
    | some dt_string =>
      dsimp only
      cases sys.string_to_time dt_string <;> simp
  · intro hd
    unfold convert_options
    simp only [hd]
  · intro datetime
    unfold convert_options_run
    dsimp only
    cases hd : st.dt_string_utc with
    | none => simp
    | some dt_string =>
      dsimp only
      cases hp : sys.string_to_time dt_string with
      | none => simp [hp]
      | some d => simp [hp, eq_comm]
  · intro dt_string datetime hd hp
    unfold convert_options
    simp only [hd, hp]

/-! ### The phase of the Moon -/

theorem calc_moon_phase_range (sun_ecliptic_long moon_true_long : ℚ) :
    0 ≤ calc_moon_phase sun_ecliptic_long moon_true_long ∧
      calc_moon_phase sun_ecliptic_long moon_true_long < 1 :=
  ⟨Int.fract_nonneg _, Int.fract_lt_one _⟩

theorem map_phase_bounds (phase : ℚ) (h0 : 0 ≤ phase) (h1 : phase < 1) :
    0 ≤ map_float_to_int_range 0 1 0 7 phase ∧ map_float_to_int_range 0 1 0 7 phase ≤ 7 := by
  unfold map_float_to_int_range
  have hval : (phase - 0) / (1 - 0) * (((7 - 0 + 1 : Int)) : ℚ) = phase * 8 := by
    norm_num
  rw [hval]
  constructor
  · have : 0 ≤ ⌊phase * 8⌋ := Int.floor_nonneg.mpr (by positivity)
    omega
  · have : ⌊phase * 8⌋ < 8 := Int.floor_lt.mpr (by push_cast; linarith)
    omega

/-- C12: for every planet table, moon object and julian date, the phase index of
`update_moon_phase` is `map_float_to_int_range(0.0, 1.0, 0, 7, phase)` with
`phase = calc_moon_phase(atan2(-ye, -xe), O + w + M)`, where `(xe, ye, ze)` is the
heliocentric position of the Earth and `O`, `w`, `M` are propagated linearly by
`d = julian_date - 2451544.5` days; the index lies in `[0, 7]`, the read of the
8-entry table `moon_phases` is in bounds, and the Moon symbol becomes the entry
at that index. -/
theorem C12_phase_index_in_bounds (ext : astro) (m : libm) (ids : planet_enum)
    (planet_table : Nat → planet) (moon_object : moon) (julian_date : ℚ) :
    moon_phase_index ext m ids planet_table moon_object julian_date =
      map_float_to_int_range 0 1 0 7
        (calc_moon_phase
          (m.atan2
            (-(ext.calc_planet_helio_ICRF (planet_table ids.EARTH).elements
              (planet_table ids.EARTH).rates (planet_table ids.EARTH).extras julian_date).2.1)
            (-(ext.calc_planet_helio_ICRF (planet_table ids.EARTH).elements
              (planet_table ids.EARTH).rates (planet_table ids.EARTH).extras julian_date).1))
          ((moon_object.elements.O + moon_object.rates.dO * (julian_date - 2451544.5)) +
            (moon_object.elements.w + moon_object.rates.dw * (julian_date - 2451544.5)) +
            (moon_object.elements.M + moon_object.rates.dM * (julian_date - 2451544.5)))) ∧
    0 ≤ moon_phase_index ext m ids planet_table moon_object julian_date ∧
    moon_phase_index ext m ids planet_table moon_object julian_date ≤ 7 ∧
    moon_phases.length = 8 ∧
    ∃ moon_char,
      moon_phases[(moon_phase_index ext m ids planet_table moon_object julian_date).toNat]? =
        some moon_char ∧
      update_moon_phase ext m ids planet_table moon_object julian_date =
        .ok { moon_object with base := { moon_object.base with symbol_unicode := moon_char } } := by
  have hidx : moon_phase_index ext m ids planet_table moon_object julian_date =
      map_float_to_int_range 0 1 0 7
        (calc_moon_phase
          (m.atan2
            (-(ext.calc_planet_helio_ICRF (planet_table ids.EARTH).elements
              (planet_table ids.EARTH).rates (planet_table ids.EARTH).extras julian_date).2.1)
            (-(ext.calc_planet_helio_ICRF (planet_table ids.EARTH).elements
              (planet_table ids.EARTH).rates (planet_table ids.EARTH).extras julian_date).1))
          ((moon_object.elements.O + moon_object.rates.dO * (julian_date - 2451544.5)) +
            (moon_object.elements.w + moon_object.rates.dw * (julian_date - 2451544.5)) +
            (moon_object.elements.M + moon_object.rates.dM * (julian_date - 2451544.5)))) := by
    unfold moon_phase_index
    simp only [mul_neg, mul_one]
  have hb := map_phase_bounds _ (calc_moon_phase_range _ _).1 (calc_moon_phase_range
    (m.atan2
      (-(ext.calc_planet_helio_ICRF (planet_table ids.EARTH).elements
        (planet_table ids.EARTH).rates (planet_table ids.EARTH).extras julian_date).2.1)
      (-(ext.calc_planet_helio_ICRF (planet_table ids.EARTH).elements
        (planet_table ids.EARTH).rates (planet_table ids.EARTH).extras julian_date).1))
    ((moon_object.elements.O + moon_object.rates.dO * (julian_date - 2451544.5)) +
      (moon_object.elements.w + moon_object.rates.dw * (julian_date - 2451544.5)) +
      (moon_object.elements.M + moon_object.rates.dM * (julian_date - 2451544.5)))).2
  rw [← hidx] at hb
  have hlen : moon_phases.length = 8 := rfl
  have hlt : (moon_phase_index ext m ids planet_table moon_object julian_date).toNat
      < moon_phases.length := by
    rw [hlen]; omega
  refine ⟨hidx, hb.1, hb.2, hlen, moon_phases[(moon_phase_index ext m ids planet_table
    moon_object julian_date).toNat], List.getElem?_eq_getElem hlt, ?_⟩
  unfold update_moon_phase
  simp only [hb.1, if_true, List.getElem?_eq_getElem hlt]

/-! ### The step size of the azimuthal grid -/

theorem select_inc_eq (m : libm) (rad_vertical inc0 : Int) :
    select_inc m rad_vertical inc0 =
      if grid_rows m rad_vertical 90 < min_height then .ok 45
      else if grid_rows m rad_vertical 45 < min_height then .ok 30
      else if grid_rows m rad_vertical 30 < min_height then .ok 15
      else if grid_rows m rad_vertical 15 < min_height then .ok 10
      else if grid_rows m rad_vertical 10 < min_height then .error (-1)
      else .ok 10 := by
  have h4 : step_at ((4 : Nat) : Int) = some 90 := rfl
  have h3 : step_at ((3 : Nat) : Int) = some 45 := rfl
  have h2 : step_at ((2 : Nat) : Int) = some 30 := rfl
  have h1 : step_at ((1 : Nat) : Int) = some 15 := rfl
  have h0 : step_at ((0 : Nat) : Int) = some 10 := rfl
  have g3 : step_at (((4 : Nat) : Int) - 1) = some 45 := rfl
  have g2 : step_at (((3 : Nat) : Int) - 1) = some 30 := rfl
  have g1 : step_at (((2 : Nat) : Int) - 1) = some 15 := rfl
  have g0 : step_at (((1 : Nat) : Int) - 1) = some 10 := rfl
  have gm : step_at (((0 : Nat) : Int) - 1) = none := rfl
  have hlen : step_sizes.length = 4 + 1 := rfl
  unfold select_inc
  rw [hlen]
  simp only [select_inc_loop, h4, h3, h2, h1, h0, g3, g2, g1, g0, gm]
  split_ifs <;> rfl

theorem c_round_eq (v : ℚ) (z : Int) (h0 : 0 ≤ v) (h1 : (z : ℚ) ≤ v + 1 / 2)
    (h2 : v + 1 / 2 < (z : ℚ) + 1) : c_round v = z := by
  unfold c_round
  rw [if_pos h0]
  exact Int.floor_eq_iff.mpr ⟨h1, h2⟩

theorem demo_rows_40 :
    grid_rows demo_libm 40 90 = 40 ∧ grid_rows demo_libm 40 45 = 28 ∧
    grid_rows demo_libm 40 30 = 20 ∧ grid_rows demo_libm 40 15 = 10 ∧
    grid_rows demo_libm 40 10 = 7 := by
  refine ⟨?_, ?_, ?_, ?_, ?_⟩ <;>
    (unfold grid_rows; apply c_round_eq <;> norm_num [demo_libm, M_PI])

theorem demo_rows_12 :
    grid_rows demo_libm 12 90 = 12 ∧ grid_rows demo_libm 12 45 = 8 ∧
    grid_rows demo_libm 12 30 = 6 ∧ grid_rows demo_libm 12 15 = 3 ∧
    grid_rows demo_libm 12 10 = 2 := by
  refine ⟨?_, ?_, ?_, ?_, ?_⟩ <;>
    (unfold grid_rows; apply c_round_eq <;> norm_num [demo_libm, M_PI])

/-- C13 fails on the code: in a window of 81 rows `rad_vertical` is 40, the step
sizes 90, 45, 30 and 15 yield 40, 28, 20 and 10 rows, the step size 10 yields 7
rows, and the selection then reads `step_sizes[-1]`. In general the selection
reads `step_sizes[-1]` exactly when the four larger step sizes yield at least
`min_height` rows and the step size 10 does not, and the increments it can select
otherwise are 10, 15, 30 and 45. -/
theorem C13_step_sizes_read_at_minus_one :
    rad_vertical_of { height := 81, width := 162 } = 40 ∧
    (∀ inc0, select_inc demo_libm 40 inc0 = .error (-1)) ∧
    step_at (-1) = none ∧
    (∀ (m : libm) (rad_vertical inc0 : Int),
      (select_inc m rad_vertical inc0 = .error (-1) ↔
        (min_height ≤ grid_rows m rad_vertical 90 ∧ min_height ≤ grid_rows m rad_vertical 45 ∧
          min_height ≤ grid_rows m rad_vertical 30 ∧ min_height ≤ grid_rows m rad_vertical 15 ∧
          grid_rows m rad_vertical 10 < min_height)) ∧
      (select_inc m rad_vertical inc0 = .error (-1) ∨
        select_inc m rad_vertical inc0 = .ok 10 ∨ select_inc m rad_vertical inc0 = .ok 15 ∨
        select_inc m rad_vertical inc0 = .ok 30 ∨ select_inc m rad_vertical inc0 = .ok 45)) := by
  refine ⟨?_, ?_, rfl, ?_⟩
  · unfold rad_vertical_of
    apply c_round_eq <;> norm_num
  · intro inc0
    obtain ⟨r90, r45, r30, r15, r10⟩ := demo_rows_40
    rw [select_inc_eq, r90, r45, r30, r15, r10]
    simp [min_height]
  · intro m rad_vertical inc0
    rw [select_inc_eq]
    constructor
    · split_ifs <;> simp_all
    · split_ifs <;> simp

/-- C14 fails on the code: in a window of 24 rows `rad_vertical` is 12, the only
step size that yields at least `min_height = 10` rows is 90 (12 rows; 45 yields 8
and 30 yields 6), but the selection returns 30: after the candidate 45 fails it
moves on to the next smaller step size instead of going back to 90. In general the
step size 90 is never selected. -/
theorem C14_selected_step_is_not_smallest_desirable :
    rad_vertical_of { height := 24, width := 48 } = 12 ∧
    smallest_desirable demo_libm 12 = some 90 ∧
    (∀ inc0, select_inc demo_libm 12 inc0 = .ok 30) ∧
    grid_rows demo_libm 12 30 < min_height ∧
    (∀ (m : libm) (rad_vertical inc0 : Int),
      select_inc m rad_vertical inc0 ≠ .ok 90) := by
  obtain ⟨r90, r45, r30, r15, r10⟩ := demo_rows_12
  refine ⟨?_, ?_, ?_, ?_, ?_⟩
  · unfold rad_vertical_of
    apply c_round_eq <;> norm_num
  · simp [smallest_desirable, step_sizes, List.find?, r90, r45, r30, r15, r10, min_height]
  · intro inc0
    rw [select_inc_eq, r90, r45]
    simp [min_height]
  · rw [r30]
    simp [min_height]
  · intro m rad_vertical inc0
    rw [select_inc_eq]
    split_ifs <;> simp

/-! ### The comparator of the grid angles -/

theorem gcd_step (a b : Int) (h : b ≠ 0) : gcd a b = gcd b (a.tmod b) := by
  rw [gcd, dif_pos h]

theorem gcd_zero (a : Int) : gcd a 0 = a := by
  rw [gcd, dif_neg (by simp)]

theorem gcd_eq_zero : ∀ (n : Nat) (a b : Int), b.natAbs < n → gcd a b = 0 → a = 0 ∧ b = 0 := by
  intro n
  induction n with
  | zero => intro a b h; exact absurd h (Nat.not_lt_zero _)
  | succ n ih =>
    intro a b hlt hg
    by_cases hb : b = 0
    · subst hb
      rw [gcd_zero] at hg
      exact ⟨hg, rfl⟩
    · rw [gcd_step a b hb] at hg
      have hdec : (a.tmod b).natAbs < b.natAbs := by
        have hpos : 0 < b.natAbs := Int.natAbs_pos.mpr hb
        cases a <;> cases b <;>
          simp only [Int.tmod, Int.natAbs_ofNat, Int.natAbs_neg, Int.natAbs_negSucc,
            Int.ofNat_eq_coe, Int.natAbs_cast] at hpos ⊢ <;>
          exact Nat.mod_lt _ hpos
      exact absurd (ih b (a.tmod b) (by omega) hg).1 hb

theorem gcd_90_values :
    gcd 0 90 = 90 ∧ gcd 10 90 = 10 := by
  have t1 : Int.tmod 0 90 = 0 := by decide
  have t2 : Int.tmod 10 90 = 10 := by decide
  have t3 : Int.tmod 90 10 = 0 := by decide
  constructor
  · rw [gcd_step 0 90 (by decide), t1, gcd_zero]
  · rw [gcd_step 10 90 (by decide), t2, gcd_step 90 10 (by decide), t3, gcd_zero]

/-- C15 fails on the code: `compare_angles` returns the `int` value of `<`, so 1 or
0 and never a negative number. For the grid angles 0 and 10 (two of the angles
generated for the increment 10), of priorities 1 and 9,
`compare_angles(0, 10)` is 1 and `compare_angles(10, 0)` is 0: the two results do
not have opposite signs, and the result 0 is returned for different priorities. In
general the result is 0 exactly when the priority of the first angle is not below
that of the second. The division is never by zero: `gcd(x, 90)` is not 0. -/
theorem C15_compare_angles_returns_less_than :
    grid_angles 10 = [0, 10, 20, 30, 40, 50, 60, 70, 80, 90] ∧
    angle_priority 0 = 1 ∧ angle_priority 10 = 9 ∧
    compare_angles 0 10 = 1 ∧ compare_angles 10 0 = 0 ∧
    (∀ x : Int, gcd x 90 ≠ 0) ∧
    (∀ x y : Int, compare_angles x y = 0 ∨ compare_angles x y = 1) ∧
    (∀ x y : Int, compare_angles x y = 0 ↔ angle_priority y ≤ angle_priority x) ∧
    (∀ x y : Int, compare_angles x y = 1 ↔ angle_priority x < angle_priority y) := by
  obtain ⟨g0, g10⟩ := gcd_90_values
  have d1 : Int.tdiv 90 90 = 1 := by decide
  have d9 : Int.tdiv 90 10 = 9 := by decide
  refine ⟨by decide, ?_, ?_, ?_, ?_, ?_, ?_, ?_, ?_⟩
  · rw [angle_priority, g0, d1]
  · rw [angle_priority, g10, d9]
  · rw [compare_angles, g0, g10, d1, d9]
    decide
  · rw [compare_angles, g0, g10, d1, d9]
    decide
  · intro x hx
    have := (gcd_eq_zero ((90 : Int).natAbs + 1) x 90 (Nat.lt_succ_self _) hx).2
    exact absurd this (by decide)
  · intro x y
    unfold compare_angles
    split_ifs
    · exact Or.inr rfl
    · exact Or.inl rfl
  · intro x y
    unfold compare_angles angle_priority
    split_ifs with h
    · simp only [one_ne_zero, false_iff, not_le]
      exact h
    · simp only [true_iff]
      exact not_lt.mp h
  · intro x y
    unfold compare_angles angle_priority
    split_ifs with h
    · simp only [true_iff]
      exact h
    · simp only [zero_ne_one, false_iff]
      exact h

end Starsaver
